import Mathlib

/-!
# Verification of the device-farm backend

Shallow embedding of the device-lifecycle orchestrator of the repository
(`src/backend/src/services/DeviceService.ts`,
`src/backend/src/services/AppiumService.ts`,
`src/backend/src/utils/ios.ts`, and the realtime handlers in
`WebSocketService`), together with theorems settling the specification
claims about the registry state machine, reservations, sessions,
discovery cycles, driver-server port allocation, the screen-mirror pump,
the driver log ring, the log filter, and the iOS pixel-to-point scale
conversion.

Timestamps are modelled as natural numbers of milliseconds (`Date.now()`),
synthetic uuids as a fresh-id counter threaded through the state, and the
JavaScript `Map` objects as association lists in insertion order (which is
exactly the iteration order of a JavaScript `Map`).
-/

namespace DeviceFarm

/-- Device status, from `shared/types` (`Device.status`). -/
inductive DeviceStatus
  | online
  | offline
  | unauthorized
  | reserved
  | inUse
deriving DecidableEq, Repr

/-- Device platform. -/
inductive Platform
  | android
  | ios
deriving DecidableEq, Repr

/-- The string rendered for a status when it is interpolated into a
message (`in-use` is the literal used by `shared/types`). -/
def statusString : DeviceStatus → String
  | .online => "online"
  | .offline => "offline"
  | .unauthorized => "unauthorized"
  | .reserved => "reserved"
  | .inUse => "in-use"

/-- The fields of a `Device` record that the verified operations read or
write.  Descriptive fields (name, model, battery, capabilities, ...) are
never consulted by the registry state machine and are omitted. -/
structure Device where
  id : Nat
  serialNumber : String
  platform : Platform
  status : DeviceStatus
  reservedBy : Option String := none
  reservedAt : Option Nat := none
  lastSeen : Nat
  connectedAt : Nat
deriving DecidableEq, Repr

/-- Reservation status, from `shared/types`. -/
inductive ReservationStatus
  | pending
  | active
  | completed
  | cancelled
deriving DecidableEq, Repr

/-- A `DeviceReservation` record. -/
structure Reservation where
  id : Nat
  deviceId : Nat
  userId : String
  startTime : Nat
  endTime : Nat
  status : ReservationStatus
  purpose : String
deriving DecidableEq, Repr

/-- Session status, from `shared/types`. -/
inductive SessionStatus
  | active
  | completed
  | failed
deriving DecidableEq, Repr

/-- A `DeviceSession` record. -/
structure Session where
  id : Nat
  deviceId : Nat
  userId : String
  startTime : Nat
  endTime : Option Nat := none
  status : SessionStatus
deriving DecidableEq, Repr

/-- The mutable state of `DeviceService`: the `devices`, `sessions` and
`reservations` maps (in insertion order) plus the fresh-id counter that
stands for `uuidv4()`. -/
structure ServiceState where
  devices : List Device := []
  sessions : List Session := []
  reservations : List Reservation := []
  nextId : Nat := 0
deriving DecidableEq, Repr

/-- `this.devices.get(deviceId)` (ids are unique keys, so first match). -/
def getDevice (s : ServiceState) (deviceId : Nat) : Option Device :=
  s.devices.find? (fun d => d.id = deviceId)

/-- JavaScript truthiness of `device.reservedBy : string | undefined`:
`undefined` and the empty string are falsy. -/
def jsTruthy : Option String → Bool
  | none => false
  | some u => u ≠ ""

/-- The error message thrown by `reserveDevice` for a non-`online`
device (DeviceService.ts:393). -/
def notAvailableMsg (st : DeviceStatus) : String :=
  "Device is not available for reservation. Current status: " ++ statusString st

/-- Replace the device with the given id (the key of the `devices` map)
using `f`; all other entries are untouched. -/
def updateDevice (devs : List Device) (deviceId : Nat) (f : Device → Device) :
    List Device :=
  devs.map (fun d => if d.id = deviceId then f d else d)

/-- `DeviceService.reserveDevice` (DeviceService.ts:386-415).  Returns the
thrown error or the created reservation, together with the state after
the call (a throw leaves the state untouched). -/
def reserveDevice (s : ServiceState) (deviceId : Nat) (userId : String)
    (duration : Nat) (purpose : String) (now : Nat) :
    Except String Reservation × ServiceState :=
  match getDevice s deviceId with
  | none => (.error "Device not found", s)
  | some d =>
    if d.status ≠ DeviceStatus.online then
      (.error (notAvailableMsg d.status), s)
    else
      let r : Reservation :=
        { id := s.nextId, deviceId := deviceId, userId := userId,
          startTime := now, endTime := now + duration * 60000,
          status := .active, purpose := purpose }
      let devices' := updateDevice s.devices deviceId (fun d' =>
        { d' with status := .reserved, reservedBy := some userId,
                  reservedAt := some now })
      (.ok r,
       { s with devices := devices',
                reservations := s.reservations ++ [r],
                nextId := s.nextId + 1 })

/-- Mark the first `active` reservation for `deviceId` as `completed`
with `endTime = now` — the `find` + mutation in `releaseDevice`. -/
def completeFirstActive (deviceId now : Nat) :
    List Reservation → List Reservation
  | [] => []
  | r :: rs =>
    if r.deviceId = deviceId ∧ r.status = .active then
      { r with status := .completed, endTime := now } :: rs
    else
      r :: completeFirstActive deviceId now rs

/-- `DeviceService.releaseDevice` (DeviceService.ts:417-437). -/
def releaseDevice (s : ServiceState) (deviceId : Nat) (now : Nat) :
    Except String Unit × ServiceState :=
  match getDevice s deviceId with
  | none => (.error "Device not found", s)
  | some _ =>
    let devices' := updateDevice s.devices deviceId (fun d' =>
      { d' with status := .online, reservedBy := none, reservedAt := none })
    (.ok (),
     { s with devices := devices',
              reservations := completeFirstActive deviceId now s.reservations })

/-- `DeviceService.createSession` (DeviceService.ts:591-610).  Always
succeeds: the session is stored first, and the device status is set to
`in-use` only when the device exists. -/
def createSession (s : ServiceState) (deviceId : Nat) (userId : String)
    (now : Nat) : Session × ServiceState :=
  let sess : Session :=
    { id := s.nextId, deviceId := deviceId, userId := userId,
      startTime := now, endTime := none, status := .active }
  let devices' := updateDevice s.devices deviceId (fun d =>
    { d with status := .inUse })
  (sess,
   { s with sessions := s.sessions ++ [sess],
            devices := devices',
            nextId := s.nextId + 1 })

/-- The `session:start` handler of `WebSocketService` invokes
`createSession` directly, with no device-existence or status check. -/
def sessionStartHandler (s : ServiceState) (deviceId : Nat)
    (userId : String) (now : Nat) : Session × ServiceState :=
  createSession s deviceId userId now

/-- `DeviceService.endSession` (DeviceService.ts:612-629).  A session id
not in the map is a silent no-op; otherwise the session is completed and
the device (when it exists) returns to `reserved` when `reservedBy` is
truthy, else to `online`. -/
def endSession (s : ServiceState) (sessionId : Nat) (now : Nat) :
    ServiceState :=
  match s.sessions.find? (fun t => t.id = sessionId) with
  | none => s
  | some sess =>
    let sessions' := s.sessions.map (fun t =>
      if t.id = sessionId then
        { t with status := .completed, endTime := some now }
      else t)
    let devices' := updateDevice s.devices sess.deviceId (fun d =>
      { d with status := if jsTruthy d.reservedBy then .reserved else .online })
    { s with sessions := sessions', devices := devices' }

/-! ## Discovery (`DeviceService.discoverDevices`, DeviceService.ts:94-188) -/

/-- The status update applied to an already-registered device observed in
a discovery cycle: `offline` is promoted to `online`, every other status
is left untouched (DeviceService.ts:112-114, 138-140). -/
def promoteStatus : DeviceStatus → DeviceStatus
  | .offline => .online
  | st => st

/-- Mutate the first registry device with the given serial
(`getDeviceBySerial` returns the first match): promote its status and
stamp `lastSeen`. -/
def touchBySerial (serial : String) (now : Nat) :
    List Device → List Device
  | [] => []
  | d :: ds =>
    if d.serialNumber = serial then
      { d with status := promoteStatus d.status, lastSeen := now } :: ds
    else
      d :: touchBySerial serial now ds

/-- A freshly created device record (`createDeviceFromADB` /
`createDeviceFromIOS`): status `online`, no reservation fields. -/
def freshDevice (p : Platform) (serial : String) (id now : Nat) : Device :=
  { id := id, serialNumber := serial, platform := p, status := .online,
    reservedBy := none, reservedAt := none, lastSeen := now,
    connectedAt := now }

/-- One iteration of the per-platform discovery loop: update the existing
device with this serial, or insert a fresh record (and start its
monitoring, reported as the returned id). -/
def touchOrCreate (p : Platform) (now : Nat) (s : ServiceState)
    (serial : String) : ServiceState × Option Nat :=
  if s.devices.any (fun d => d.serialNumber = serial) then
    ({ s with devices := touchBySerial serial now s.devices }, none)
  else
    ({ s with devices := s.devices ++ [freshDevice p serial s.nextId now],
              nextId := s.nextId + 1 }, some s.nextId)

/-- The per-platform discovery loop over a list of observed serials. -/
def processSerials (p : Platform) (now : Nat) (s : ServiceState) :
    List String → ServiceState × List Nat
  | [] => (s, [])
  | serial :: rest =>
    let step := touchOrCreate p now s serial
    let tail := processSerials p now step.1 rest
    (tail.1, step.2.toList ++ tail.2)

/-- Phase 2 of a discovery cycle, per device: a registered device whose
serial was not observed and whose status is not already `offline` is
marked `offline` with `lastSeen` stamped (DeviceService.ts:157-180). -/
def markOffline (observed : List String) (now : Nat) (d : Device) : Device :=
  if observed.contains d.serialNumber ∨ d.status = .offline then d
  else { d with status := .offline, lastSeen := now }

/-- The devices whose transition to `offline` triggers `stopDeviceMonitoring`
and `appiumService.stopServerForDevice`. -/
def newlyMissing (observed : List String) (devs : List Device) : List Nat :=
  (devs.filter
    (fun d => ¬ observed.contains d.serialNumber ∧ d.status ≠ .offline)).map
    (fun d => d.id)

/-- The outcome of one discovery cycle: the new registry state plus the
side effects performed (log tails started for new devices; log tails and
driver servers stopped for disconnected devices). -/
structure DiscoverOut where
  state : ServiceState
  startedMonitoring : List Nat
  stoppedMonitoring : List Nat
  stoppedServers : List Nat
deriving Repr

/-- `DeviceService.discoverDevices`: process the Android identifier list,
then the iOS identifier list, then mark every unobserved, not-yet-offline
registry device as `offline` (never removing it). -/
def discoverDevices (s : ServiceState) (androidIds iosIds : List String)
    (now : Nat) : DiscoverOut :=
  let a := processSerials .android now s androidIds
  let b := processSerials .ios now a.1 iosIds
  let observed := androidIds ++ iosIds
  { state := { b.1 with devices := (b.1.devices).map (markOffline observed now) },
    startedMonitoring := a.2 ++ b.2,
    stoppedMonitoring := newlyMissing observed b.1.devices,
    stoppedServers := newlyMissing observed b.1.devices }

/-- The states of `DeviceService` reachable from the freshly constructed
service by any sequence of `discoverDevices`, `reserveDevice`,
`releaseDevice`, `createSession`, `endSession` calls. -/
inductive Reach : ServiceState → Prop
  | init : Reach {}
  | discover {s} (androidIds iosIds : List String) (now : Nat) :
      Reach s → Reach (discoverDevices s androidIds iosIds now).state
  | reserve {s} (deviceId : Nat) (userId : String) (duration : Nat)
      (purpose : String) (now : Nat) :
      Reach s → Reach (reserveDevice s deviceId userId duration purpose now).2
  | release {s} (deviceId : Nat) (now : Nat) :
      Reach s → Reach (releaseDevice s deviceId now).2
  | createSess {s} (deviceId : Nat) (userId : String) (now : Nat) :
      Reach s → Reach (createSession s deviceId userId now).2
  | endSess {s} (sessionId : Nat) (now : Nat) :
      Reach s → Reach (endSession s sessionId now)

end DeviceFarm

namespace DeviceFarm

/-! ## Helper lemmas about `completeFirstActive` and `updateDevice` -/

theorem completeFirstActive_mem (deviceId now : Nat) (rs : List Reservation)
    (h : ∃ r ∈ rs, r.deviceId = deviceId ∧ r.status = .active) :
    ∃ r ∈ rs, r.deviceId = deviceId ∧ r.status = .active ∧
      { r with status := .completed, endTime := now } ∈
        completeFirstActive deviceId now rs := by
  induction rs with
  | nil => simp at h
  | cons r rs ih =>
    by_cases hr : r.deviceId = deviceId ∧ r.status = ReservationStatus.active
    · exact ⟨r, List.mem_cons_self r rs, hr.1, hr.2, by
        simp [completeFirstActive, hr]⟩
    · obtain ⟨r', hmem, hprop⟩ := h
      rcases List.mem_cons.mp hmem with heq | htail
      · exact absurd (heq ▸ hprop) hr
      · obtain ⟨r'', hm, h1, h2, h3⟩ := ih ⟨r', htail, hprop⟩
        exact ⟨r'', List.mem_cons_of_mem r hm, h1, h2, by
          simp [completeFirstActive, hr, h3]⟩

theorem completeFirstActive_id (deviceId now : Nat) (rs : List Reservation)
    (h : ∀ r ∈ rs, ¬ (r.deviceId = deviceId ∧ r.status = .active)) :
    completeFirstActive deviceId now rs = rs := by
  induction rs with
  | nil => rfl
  | cons r rs ih =>
    have hr := h r (List.mem_cons_self r rs)
    simp only [completeFirstActive, hr, if_false]
    rw [ih (fun x hx => h x (List.mem_cons_of_mem r hx))]

theorem updateDevice_mem (devs : List Device) (deviceId : Nat)
    (f : Device → Device) (d' : Device)
    (h : d' ∈ updateDevice devs deviceId f) :
    (∃ d ∈ devs, d.id = deviceId ∧ d' = f d) ∨ (d' ∈ devs ∧ d'.id ≠ deviceId) := by
  obtain ⟨d, hd, hfd⟩ := List.mem_map.mp h
  by_cases hid : d.id = deviceId
  · left
    refine ⟨d, hd, hid, ?_⟩
    simpa [hid] using hfd.symm
  · right
    simp only [hid, if_false] at hfd
    exact hfd ▸ ⟨hd, hid⟩

end DeviceFarm

namespace DeviceFarm

/-- C2: `reserveDevice` succeeds only on an `online` device; any other
status yields the "not available" error carrying the current status and
leaves every piece of state unchanged; success creates the reservation
`startTime = now`, `endTime = now + duration` minutes, status `active`,
and marks the device `reserved` by `userId` at `now`. -/
theorem reserveDevice_correct (s : ServiceState) (deviceId : Nat)
    (userId purpose : String) (duration now : Nat) (d : Device)
    (hd : getDevice s deviceId = some d) :
    (∀ r, (reserveDevice s deviceId userId duration purpose now).1 = .ok r →
        d.status = .online) ∧
    (d.status ≠ .online →
        (reserveDevice s deviceId userId duration purpose now).1 =
          .error (notAvailableMsg d.status) ∧
        (reserveDevice s deviceId userId duration purpose now).2 = s) ∧
    (d.status = .online →
        (reserveDevice s deviceId userId duration purpose now).1 =
          .ok { id := s.nextId, deviceId := deviceId, userId := userId,
                startTime := now, endTime := now + duration * 60000,
                status := .active, purpose := purpose } ∧
        (reserveDevice s deviceId userId duration purpose now).2.reservations =
          s.reservations ++
            [{ id := s.nextId, deviceId := deviceId, userId := userId,
               startTime := now, endTime := now + duration * 60000,
               status := .active, purpose := purpose }] ∧
        (reserveDevice s deviceId userId duration purpose now).2.sessions =
          s.sessions ∧
        (∀ d' ∈ (reserveDevice s deviceId userId duration purpose now).2.devices,
          (d'.id = deviceId →
            d'.status = .reserved ∧ d'.reservedBy = some userId ∧
            d'.reservedAt = some now) ∧
          (d'.id ≠ deviceId → d' ∈ s.devices))) := by
  by_cases h : d.status = DeviceStatus.online
  · refine ⟨fun r _ => h, fun hne => absurd h hne, fun _ => ?_⟩
    refine ⟨?_, ?_, ?_, fun d' hmem => ?_⟩
    · simp [reserveDevice, hd, h]
    · simp [reserveDevice, hd, h]
    · simp [reserveDevice, hd, h]
    · have hmem' : d' ∈ updateDevice s.devices deviceId (fun d' =>
        { d' with status := .reserved, reservedBy := some userId,
                  reservedAt := some now }) := by
        simpa [reserveDevice, hd, h] using hmem
      rcases updateDevice_mem _ _ _ _ hmem' with ⟨d₀, _, hid, heq⟩ | ⟨hmm, hne⟩
      · exact ⟨fun _ => by simp [heq], fun hne => absurd (by simp [heq, hid]) hne⟩
      · exact ⟨fun heq => absurd heq hne, fun _ => hmm⟩
  · refine ⟨fun r hr => ?_, fun _ => ?_, fun ho => absurd ho h⟩
    · exfalso
      simp [reserveDevice, hd, h] at hr
    · constructor
      · simp [reserveDevice, hd, h]
      · simp [reserveDevice, hd, h]

/-- Witness for `reserveDevice_correct` at a concrete online device. -/
theorem reserveDevice_correct_witness :
    (reserveDevice
        { devices := [{ id := 0, serialNumber := "S1", platform := .android,
                        status := .online, lastSeen := 0, connectedAt := 0 }],
          nextId := 1 } 0 "alice" 30 "wdio" 100).1 =
      .ok { id := 1, deviceId := 0, userId := "alice", startTime := 100,
            endTime := 100 + 30 * 60000, status := .active,
            purpose := "wdio" } :=
  (reserveDevice_correct
    { devices := [{ id := 0, serialNumber := "S1", platform := .android,
                    status := .online, lastSeen := 0, connectedAt := 0 }],
      nextId := 1 } 0 "alice" "wdio" 30 100
    { id := 0, serialNumber := "S1", platform := .android,
      status := .online, lastSeen := 0, connectedAt := 0 }
    (by decide)).2.2 (by decide) |>.1

end DeviceFarm

namespace DeviceFarm

/-- C3: for a device present in the registry, `releaseDevice` succeeds,
unconditionally sets the device's status to `online` and clears
`reservedBy`/`reservedAt`; other devices and the sessions are untouched;
if an `active` reservation for the device existed, (the first) one is
marked `completed` with `endTime` stamped to the release time, and with
no active reservation the reservation map is unchanged. -/
theorem releaseDevice_correct (s : ServiceState) (deviceId now : Nat)
    (d : Device) (hd : getDevice s deviceId = some d) :
    (releaseDevice s deviceId now).1 = .ok () ∧
    (∀ d' ∈ (releaseDevice s deviceId now).2.devices, d'.id = deviceId →
        d'.status = .online ∧ d'.reservedBy = none ∧ d'.reservedAt = none) ∧
    (∀ d' ∈ (releaseDevice s deviceId now).2.devices, d'.id ≠ deviceId →
        d' ∈ s.devices) ∧
    (releaseDevice s deviceId now).2.sessions = s.sessions ∧
    ((∃ r ∈ s.reservations, r.deviceId = deviceId ∧ r.status = .active) →
        ∃ r ∈ s.reservations, r.deviceId = deviceId ∧ r.status = .active ∧
          { r with status := .completed, endTime := now } ∈
            (releaseDevice s deviceId now).2.reservations) ∧
    ((∀ r ∈ s.reservations, ¬ (r.deviceId = deviceId ∧ r.status = .active)) →
        (releaseDevice s deviceId now).2.reservations = s.reservations) := by
  refine ⟨by simp [releaseDevice, hd], fun d' hmem hid => ?_,
    fun d' hmem hne => ?_, by simp [releaseDevice, hd], fun hex => ?_,
    fun hnone => ?_⟩
  · have hmem' : d' ∈ updateDevice s.devices deviceId (fun d' =>
        { d' with status := .online, reservedBy := none,
                  reservedAt := none }) := by
      simpa [releaseDevice, hd] using hmem
    rcases updateDevice_mem _ _ _ _ hmem' with ⟨d₀, _, _, heq⟩ | ⟨_, hne⟩
    · simp [heq]
    · exact absurd hid hne
  · have hmem' : d' ∈ updateDevice s.devices deviceId (fun d' =>
        { d' with status := .online, reservedBy := none,
                  reservedAt := none }) := by
      simpa [releaseDevice, hd] using hmem
    rcases updateDevice_mem _ _ _ _ hmem' with ⟨d₀, _, hid, heq⟩ | ⟨hmm, _⟩
    · exact absurd (by simp [heq, hid]) hne
    · exact hmm
  · obtain ⟨r, hm, h1, h2, h3⟩ := completeFirstActive_mem deviceId now _ hex
    refine ⟨r, hm, h1, h2, ?_⟩
    simpa [releaseDevice, hd] using h3
  · simp only [releaseDevice, hd]
    exact completeFirstActive_id deviceId now _ hnone

/-- Witness for `releaseDevice_correct`: a reserved device with one
active reservation is released. -/
theorem releaseDevice_correct_witness :
    ∃ r ∈ [({ id := 1, deviceId := 0, userId := "alice", startTime := 5,
              endTime := 10, status := .active, purpose := "w" } :
              Reservation)],
      r.deviceId = 0 ∧ r.status = .active ∧
        { r with status := ReservationStatus.completed, endTime := 77 } ∈
          (releaseDevice
            { devices := [{ id := 0, serialNumber := "S1",
                            platform := .android, status := .reserved,
                            reservedBy := some "alice",
                            reservedAt := some 5, lastSeen := 0,
                            connectedAt := 0 }],
              reservations := [{ id := 1, deviceId := 0, userId := "alice",
                                 startTime := 5, endTime := 10,
                                 status := .active, purpose := "w" }],
              nextId := 2 } 0 77).2.reservations :=
  (releaseDevice_correct
    { devices := [{ id := 0, serialNumber := "S1", platform := .android,
                    status := .reserved, reservedBy := some "alice",
                    reservedAt := some 5, lastSeen := 0, connectedAt := 0 }],
      reservations := [{ id := 1, deviceId := 0, userId := "alice",
                         startTime := 5, endTime := 10, status := .active,
                         purpose := "w" }],
      nextId := 2 } 0 77
    { id := 0, serialNumber := "S1", platform := .android,
      status := .reserved, reservedBy := some "alice", reservedAt := some 5,
      lastSeen := 0, connectedAt := 0 }
    (by decide)).2.2.2.2.1
    ⟨{ id := 1, deviceId := 0, userId := "alice", startTime := 5,
       endTime := 10, status := .active, purpose := "w" },
     by decide, by decide, by decide⟩

/-- If `find?` fails, no element satisfies the predicate. -/
theorem find?_none_all {α} (p : α → Bool) (l : List α)
    (h : l.find? p = none) : ∀ a ∈ l, p a = false := by
  induction l with
  | nil => simp
  | cons x xs ih =>
    intro a ha
    by_cases hx : p x
    · simp [List.find?, hx] at h
    · rcases List.mem_cons.mp ha with rfl | hmem
      · simpa using hx
      · exact ih (by simpa [List.find?, hx] using h) a hmem

/-- C10: `createSession` always returns and stores a fresh `active`
session, raising no not-found error; the `in-use` status change applies
only to an existing device (a missing device leaves the registry
untouched); and the realtime `session:start` handler is exactly
`createSession` with no preceding existence or status check. -/
theorem createSession_correct (s : ServiceState) (deviceId : Nat)
    (userId : String) (now : Nat) :
    (createSession s deviceId userId now).1.status = .active ∧
    (createSession s deviceId userId now).1.deviceId = deviceId ∧
    (createSession s deviceId userId now).1.userId = userId ∧
    (createSession s deviceId userId now).1.startTime = now ∧
    (createSession s deviceId userId now).2.sessions =
      s.sessions ++ [(createSession s deviceId userId now).1] ∧
    (getDevice s deviceId = none →
      (createSession s deviceId userId now).2.devices = s.devices) ∧
    (∀ d' ∈ (createSession s deviceId userId now).2.devices,
        d'.id = deviceId → d'.status = .inUse) ∧
    (∀ d' ∈ (createSession s deviceId userId now).2.devices,
        d'.id ≠ deviceId → d' ∈ s.devices) ∧
    sessionStartHandler s deviceId userId now =
      createSession s deviceId userId now := by
  refine ⟨rfl, rfl, rfl, rfl, rfl, fun hnone => ?_, fun d' hmem hid => ?_,
    fun d' hmem hne => ?_, rfl⟩
  · have hall : ∀ d ∈ s.devices, d.id ≠ deviceId := by
      intro d hd hid
      have h0 : s.devices.find? (fun x => x.id = deviceId) = none := hnone
      have hfalse := find?_none_all _ _ h0 d hd
      simp [hid] at hfalse
    show updateDevice s.devices deviceId
      (fun d => { d with status := .inUse }) = s.devices
    have hmap : updateDevice s.devices deviceId
        (fun d => { d with status := DeviceStatus.inUse }) =
        s.devices.map (fun d => d) :=
      List.map_congr_left (fun d hd => by simp [hall d hd])
    simpa using hmap
  · have hmem' : d' ∈ updateDevice s.devices deviceId
        (fun d => { d with status := .inUse }) := hmem
    rcases updateDevice_mem _ _ _ _ hmem' with ⟨d₀, _, _, heq⟩ | ⟨_, hne⟩
    · simp [heq]
    · exact absurd hid hne
  · have hmem' : d' ∈ updateDevice s.devices deviceId
        (fun d => { d with status := .inUse }) := hmem
    rcases updateDevice_mem _ _ _ _ hmem' with ⟨d₀, _, hid, heq⟩ | ⟨hmm, _⟩
    · exact absurd (by simp [heq, hid]) hne
    · exact hmm

/-- Witness for `createSession_correct`: starting a session on a device
id that is not in the registry stores an active session and leaves the
registry untouched. -/
theorem createSession_correct_witness :
    (createSession { nextId := 0 } 42 "bob" 9).1.status = .active ∧
    (createSession { nextId := 0 } 42 "bob" 9).2.devices =
      ({ nextId := 0 } : ServiceState).devices :=
  ⟨(createSession_correct { nextId := 0 } 42 "bob" 9).1,
   (createSession_correct { nextId := 0 } 42 "bob" 9).2.2.2.2.2.1
     (by decide)⟩

end DeviceFarm

namespace DeviceFarm

/-- The per-device half of the spec invariant that actually holds:
a `reserved` device always records who reserved it. -/
def InvD (d : Device) : Prop :=
  d.status = .reserved → d.reservedBy ≠ none

theorem promoteStatus_reserved (st : DeviceStatus) :
    promoteStatus st = .reserved → st = .reserved := by
  cases st <;> simp [promoteStatus]

theorem jsTruthy_ne_none (o : Option String) (h : jsTruthy o = true) :
    o ≠ none := by
  cases o with
  | none => simp [jsTruthy] at h
  | some u => simp

theorem invD_touchBySerial (serial : String) (now : Nat)
    (devs : List Device) (h : ∀ d ∈ devs, InvD d) :
    ∀ d ∈ touchBySerial serial now devs, InvD d := by
  induction devs with
  | nil => simp [touchBySerial]
  | cons d ds ih =>
    intro d' hd'
    by_cases hs : d.serialNumber = serial
    · simp only [touchBySerial, hs, if_true] at hd'
      rcases List.mem_cons.mp hd' with rfl | hmem
      · intro hst
        exact h d (List.mem_cons_self d ds) (promoteStatus_reserved _ hst)
      · exact h d' (List.mem_cons_of_mem d hmem)
    · simp only [touchBySerial, hs, if_false] at hd'
      rcases List.mem_cons.mp hd' with rfl | hmem
      · exact h d' (List.mem_cons_self d' ds)
      · exact ih (fun x hx => h x (List.mem_cons_of_mem d hx)) d' hmem

theorem invD_touchOrCreate (p : Platform) (now : Nat) (s : ServiceState)
    (serial : String) (h : ∀ d ∈ s.devices, InvD d) :
    ∀ d ∈ (touchOrCreate p now s serial).1.devices, InvD d := by
  intro d hd
  unfold touchOrCreate at hd
  by_cases hc : s.devices.any (fun d => d.serialNumber = serial) = true
  · simp only [hc, if_true] at hd
    exact invD_touchBySerial serial now s.devices h d hd
  · simp only [hc, if_false] at hd
    rcases List.mem_append.mp hd with hmem | hnew
    · exact h d hmem
    · have : d = freshDevice p serial s.nextId now := by simpa using hnew
      intro hst
      rw [this] at hst
      simp [freshDevice] at hst

theorem invD_processSerials (p : Platform) (now : Nat)
    (serials : List String) :
    ∀ s : ServiceState, (∀ d ∈ s.devices, InvD d) →
      ∀ d ∈ (processSerials p now s serials).1.devices, InvD d := by
  induction serials with
  | nil => intro s h; simpa [processSerials] using h
  | cons serial rest ih =>
    intro s h
    simp only [processSerials]
    exact ih _ (invD_touchOrCreate p now s serial h)

theorem invD_markOffline (observed : List String) (now : Nat) (d : Device)
    (h : InvD d) : InvD (markOffline observed now d) := by
  unfold markOffline
  split
  · exact h
  · intro hst
    simp at hst

/-- C1 (amended): in every reachable state, a device whose status is
`reserved` has `reservedBy` set.  (The biconditional claimed by the spec
fails: see the counterexample theorem.) -/
theorem reserved_device_has_holder (s : ServiceState) (hs : Reach s) :
    ∀ d ∈ s.devices, d.status = .reserved → d.reservedBy ≠ none := by
  induction hs with
  | init => simp
  | discover androidIds iosIds now _ ih =>
    intro d hd
    unfold discoverDevices at hd
    simp only at hd
    obtain ⟨d0, hd0, rfl⟩ := List.mem_map.mp hd
    exact invD_markOffline _ _ _
      (invD_processSerials _ _ _ _ (invD_processSerials _ _ _ _ ih) d0 hd0)
  | reserve deviceId userId duration purpose now _ ih =>
    intro d hd
    unfold reserveDevice at hd
    cases hg : getDevice _ deviceId with
    | none => rw [hg] at hd; exact ih d hd
    | some d0 =>
      rw [hg] at hd
      by_cases hst : d0.status ≠ DeviceStatus.online
      · simp only [if_pos hst] at hd
        exact ih d hd
      · simp only [if_neg hst] at hd
        rcases updateDevice_mem _ _ _ _ hd with ⟨d₀, _, _, rfl⟩ | ⟨hmm, _⟩
        · intro _; simp
        · exact ih d hmm
  | release deviceId now _ ih =>
    intro d hd
    unfold releaseDevice at hd
    cases hg : getDevice _ deviceId with
    | none => rw [hg] at hd; exact ih d hd
    | some d0 =>
      rw [hg] at hd
      rcases updateDevice_mem _ _ _ _ hd with ⟨d₀, _, _, rfl⟩ | ⟨hmm, _⟩
      · intro hcon; simp at hcon
      · exact ih d hmm
  | createSess deviceId userId now _ ih =>
    intro d hd
    rcases updateDevice_mem _ _ _ _ hd with ⟨d₀, _, _, rfl⟩ | ⟨hmm, _⟩
    · intro hcon; simp at hcon
    · exact ih d hmm
  | @endSess s sessionId now _ ih =>
    intro d hd
    unfold endSession at hd
    cases hg : s.sessions.find? (fun t => t.id = sessionId) with
    | none => rw [hg] at hd; exact ih d hd
    | some sess =>
      rw [hg] at hd
      rcases updateDevice_mem _ _ _ _ hd with ⟨d₀, hmm, _, rfl⟩ | ⟨hmm, _⟩
      · intro hst
        by_cases ht : jsTruthy d₀.reservedBy = true
        · simpa using jsTruthy_ne_none _ ht
        · simp only [ht] at hst
          simp at hst
      · exact ih d hmm

/-- Witness for `reserved_device_has_holder` at a concrete reachable
state with one reserved device. -/
theorem reserved_device_has_holder_witness :
    ({ id := 0, serialNumber := "a", platform := .android,
       status := .reserved, reservedBy := some "alice",
       reservedAt := some 5, lastSeen := 0, connectedAt := 0 } :
       Device).reservedBy ≠ none :=
  reserved_device_has_holder _
    (Reach.reserve 0 "alice" 30 "w" 5 (Reach.discover ["a"] [] 0 Reach.init))
    _ (by decide) (by decide)

/-- C1 (counterexample): the spec's biconditional
"`reservedBy ≠ ∅` iff `status ∈ {reserved, in-use}`" is violated in a
reachable state: `createSession` on an online, unreserved device yields
status `in-use` with `reservedBy` still empty. -/
theorem reservedBy_iff_status_fails :
    ¬ (∀ s : ServiceState, Reach s → ∀ d ∈ s.devices,
        ((d.status = .reserved ∨ d.status = .inUse) ↔ d.reservedBy ≠ none)) := by
  intro h
  have hreach : Reach (createSession
      (discoverDevices {} ["a"] [] 0).state 0 "alice" 1).2 :=
    Reach.createSess 0 "alice" 1 (Reach.discover ["a"] [] 0 Reach.init)
  have hd : ({ id := 0, serialNumber := "a", platform := .android,
               status := .inUse, reservedBy := none, reservedAt := none,
               lastSeen := 0, connectedAt := 0 } : Device) ∈
      (createSession (discoverDevices {} ["a"] [] 0).state 0 "alice" 1).2.devices := by
    decide
  exact (h _ hreach _ hd).mp (Or.inr rfl) rfl

end DeviceFarm

namespace DeviceFarm

/-! ## C4: per-cycle behaviour of `discoverDevices` -/

/-- Registry invariant used by the discovery theorem: serial numbers are
unique keys (a device is created only when no device with its serial
exists, so discovery preserves this). -/
def serialsNodup (devs : List Device) : Prop :=
  (devs.map (fun d => d.serialNumber)).Nodup

theorem promoteStatus_idem (st : DeviceStatus) :
    promoteStatus (promoteStatus st) = promoteStatus st := by
  cases st <;> rfl

theorem touchBySerial_serials (serial : String) (now : Nat)
    (devs : List Device) :
    (touchBySerial serial now devs).map (fun d => d.serialNumber) =
      devs.map (fun d => d.serialNumber) := by
  induction devs with
  | nil => rfl
  | cons d ds ih =>
    by_cases hs : d.serialNumber = serial
    · simp [touchBySerial, hs]
    · simp [touchBySerial, hs, ih]

theorem touchBySerial_other (serial : String) (now : Nat)
    (devs : List Device) (d : Device) (h : d ∈ devs)
    (hs : d.serialNumber ≠ serial) :
    d ∈ touchBySerial serial now devs := by
  induction devs with
  | nil => simp at h
  | cons a ds ih =>
    by_cases ha : a.serialNumber = serial
    · rcases List.mem_cons.mp h with rfl | hmem
      · exact absurd ha hs
      · simp only [touchBySerial, ha, if_true]
        exact List.mem_cons_of_mem _ hmem
    · rcases List.mem_cons.mp h with rfl | hmem
      · simp only [touchBySerial, ha, if_false]
        exact List.mem_cons_self _ _
      · simp only [touchBySerial, ha, if_false]
        exact List.mem_cons_of_mem _ (ih hmem)

theorem touchBySerial_self (now : Nat) (devs : List Device)
    (hnd : serialsNodup devs) (d : Device) (h : d ∈ devs) :
    { d with status := promoteStatus d.status, lastSeen := now } ∈
      touchBySerial d.serialNumber now devs := by
  induction devs with
  | nil => simp at h
  | cons a ds ih =>
    rcases List.mem_cons.mp h with rfl | hmem
    · simp only [touchBySerial, if_pos rfl]
      exact List.mem_cons_self _ _
    · by_cases ha : a.serialNumber = d.serialNumber
      · exfalso
        have hmap : d.serialNumber ∈ ds.map (fun x => x.serialNumber) :=
          List.mem_map.mpr ⟨d, hmem, rfl⟩
        have hnodup : a.serialNumber ∉ ds.map (fun x => x.serialNumber) :=
          (List.nodup_cons.mp hnd).1
        exact hnodup (ha ▸ hmap)
      · simp only [touchBySerial, ha, if_false]
        exact List.mem_cons_of_mem _
          (ih (List.nodup_cons.mp hnd).2 hmem)

theorem serialsNodup_touchOrCreate (p : Platform) (now : Nat)
    (s : ServiceState) (serial : String) (h : serialsNodup s.devices) :
    serialsNodup (touchOrCreate p now s serial).1.devices := by
  unfold touchOrCreate
  by_cases hc : s.devices.any (fun d => d.serialNumber = serial) = true
  · rw [if_pos hc]
    show ((touchBySerial serial now s.devices).map
      (fun d => d.serialNumber)).Nodup
    rw [touchBySerial_serials]
    exact h
  · rw [if_neg hc]
    show ((s.devices ++ [freshDevice p serial s.nextId now]).map
      (fun d => d.serialNumber)).Nodup
    rw [List.map_append]
    have hnot : serial ∉ s.devices.map (fun d => d.serialNumber) := by
      intro hmem
      obtain ⟨d, hd, hds⟩ := List.mem_map.mp hmem
      exact hc (List.any_eq_true.mpr ⟨d, hd, by simp [hds]⟩)
    refine List.Nodup.append h (by simp [freshDevice]) ?_
    intro x hx hxf
    have hxs : x = serial := by simpa [freshDevice] using hxf
    exact hnot (hxs ▸ hx)

theorem touchOrCreate_tracks (p : Platform) (now : Nat) (s : ServiceState)
    (serial : String) (hnd : serialsNodup s.devices) (d : Device)
    (hd : d ∈ s.devices) :
    ∃ d1 ∈ (touchOrCreate p now s serial).1.devices,
      d1.id = d.id ∧ d1.serialNumber = d.serialNumber ∧
      (d.serialNumber = serial →
        d1.status = promoteStatus d.status ∧ d1.lastSeen = now) ∧
      (d.serialNumber ≠ serial → d1 = d) := by
  unfold touchOrCreate
  by_cases hc : s.devices.any (fun x => x.serialNumber = serial) = true
  · simp only [hc, if_true]
    by_cases hs : d.serialNumber = serial
    · refine ⟨{ d with status := promoteStatus d.status, lastSeen := now },
        ?_, rfl, rfl, fun _ => ⟨rfl, rfl⟩, fun hne => absurd hs hne⟩
      exact hs ▸ touchBySerial_self now s.devices hnd d hd
    · exact ⟨d, touchBySerial_other serial now s.devices d hd hs, rfl, rfl,
        fun heq => absurd heq hs, fun _ => rfl⟩
  · simp only [hc, if_false]
    have hs : d.serialNumber ≠ serial := by
      intro heq
      exact hc (List.any_eq_true.mpr ⟨d, hd, by simp [heq]⟩)
    exact ⟨d, List.mem_append_left _ hd, rfl, rfl,
      fun heq => absurd heq hs, fun _ => rfl⟩

theorem serialsNodup_processSerials (p : Platform) (now : Nat)
    (serials : List String) :
    ∀ s : ServiceState, serialsNodup s.devices →
      serialsNodup (processSerials p now s serials).1.devices := by
  induction serials with
  | nil => intro s h; simpa [processSerials] using h
  | cons serial rest ih =>
    intro s h
    simp only [processSerials]
    exact ih _ (serialsNodup_touchOrCreate p now s serial h)

theorem processSerials_tracks (p : Platform) (now : Nat)
    (serials : List String) :
    ∀ s : ServiceState, serialsNodup s.devices → ∀ d ∈ s.devices,
      ∃ d' ∈ (processSerials p now s serials).1.devices,
        d'.id = d.id ∧ d'.serialNumber = d.serialNumber ∧
        (d.serialNumber ∈ serials →
          d'.status = promoteStatus d.status ∧ d'.lastSeen = now) ∧
        (d.serialNumber ∉ serials → d' = d) := by
  induction serials with
  | nil =>
    intro s _ d hd
    exact ⟨d, by simpa [processSerials] using hd, rfl, rfl,
      by simp, fun _ => rfl⟩
  | cons serial rest ih =>
    intro s hnd d hd
    obtain ⟨d1, hd1, hid1, hserial1, hyes1, hno1⟩ :=
      touchOrCreate_tracks p now s serial hnd d hd
    obtain ⟨d', hd', hid', hserial', hyes', hno'⟩ :=
      ih _ (serialsNodup_touchOrCreate p now s serial hnd) d1 hd1
    refine ⟨d', by simpa [processSerials] using hd', hid'.trans hid1,
      hserial'.trans hserial1, ?_, ?_⟩
    · intro hmem
      by_cases hs : d.serialNumber = serial
      · obtain ⟨hst1, hls1⟩ := hyes1 hs
        by_cases hr : d.serialNumber ∈ rest
        · obtain ⟨hst', hls'⟩ := hyes' (by rwa [hserial1])
          exact ⟨by rw [hst', hst1, promoteStatus_idem], hls'⟩
        · have := hno' (by rwa [hserial1])
          exact ⟨by rw [this, hst1], by rw [this, hls1]⟩
      · have hr : d.serialNumber ∈ rest := by
          rcases List.mem_cons.mp hmem with heq | hm
          · exact absurd heq hs
          · exact hm
        have hd1d := hno1 hs
        obtain ⟨hst', hls'⟩ := hyes' (by rw [hserial1]; exact hd1d ▸ hr)
        rw [hd1d] at hst'
        exact ⟨hst', hls'⟩
    · intro hmem
      have hs : d.serialNumber ≠ serial := fun heq => hmem (heq ▸ List.mem_cons_self _ _)
      have hr : d.serialNumber ∉ rest := fun hm => hmem (List.mem_cons_of_mem _ hm)
      have hd1d := hno1 hs
      have := hno' (by rw [hserial1]; exact hd1d ▸ hr)
      rw [this, hd1d]

end DeviceFarm

namespace DeviceFarm

theorem contains_iff_mem {α} [DecidableEq α] (l : List α) (x : α) :
    l.contains x = true ↔ x ∈ l := by
  simp [List.contains, List.elem_iff]

theorem markOffline_of_observed (observed : List String) (now : Nat)
    (d : Device) (h : d.serialNumber ∈ observed) :
    markOffline observed now d = d := by
  unfold markOffline
  rw [if_pos (Or.inl ((contains_iff_mem _ _).mpr h))]

theorem markOffline_of_missing (observed : List String) (now : Nat)
    (d : Device) (h : d.serialNumber ∉ observed)
    (hst : d.status ≠ .offline) :
    markOffline observed now d =
      { d with status := .offline, lastSeen := now } := by
  unfold markOffline
  rw [if_neg]
  intro hcon
  rcases hcon with hc | hc
  · exact h ((contains_iff_mem _ _).mp hc)
  · exact hst hc

theorem markOffline_id_field (observed : List String) (now : Nat)
    (d : Device) : (markOffline observed now d).id = d.id := by
  unfold markOffline
  split <;> rfl

theorem mem_newlyMissing (observed : List String) (devs : List Device)
    (d : Device) (hd : d ∈ devs) (h : d.serialNumber ∉ observed)
    (hst : d.status ≠ .offline) : d.id ∈ newlyMissing observed devs := by
  unfold newlyMissing
  refine List.mem_map.mpr ⟨d, List.mem_filter.mpr ⟨hd, ?_⟩, rfl⟩
  have hgoal : ¬ observed.contains d.serialNumber = true ∧
      d.status ≠ DeviceStatus.offline :=
    ⟨fun hc => h ((contains_iff_mem _ _).mp hc), hst⟩
  simpa using hgoal

/-- C4: in a discovery cycle with observed serials
`androidIds ++ iosIds`, a registry device whose serial was observed keeps
its status except that `offline` is promoted to `online` (`reserved` and
`in-use` are never overwritten) and gets `lastSeen` stamped; a registry
device whose serial was not observed and that is not already `offline`
has its log tail and driver server stopped and becomes `offline` with
`lastSeen` stamped; and no device is ever removed from the registry. -/
theorem discoverDevices_cycle (s : ServiceState)
    (androidIds iosIds : List String) (now : Nat)
    (hnd : serialsNodup s.devices) (d : Device) (hd : d ∈ s.devices) :
    (d.serialNumber ∈ androidIds ++ iosIds →
      ∃ d' ∈ (discoverDevices s androidIds iosIds now).state.devices,
        d'.id = d.id ∧ d'.status = promoteStatus d.status ∧
        d'.lastSeen = now ∧
        (d.status = .reserved → d'.status = .reserved) ∧
        (d.status = .inUse → d'.status = .inUse) ∧
        (d.status = .offline → d'.status = .online)) ∧
    (d.serialNumber ∉ androidIds ++ iosIds → d.status ≠ .offline →
      ∃ d' ∈ (discoverDevices s androidIds iosIds now).state.devices,
        d'.id = d.id ∧ d'.status = .offline ∧ d'.lastSeen = now ∧
        d.id ∈ (discoverDevices s androidIds iosIds now).stoppedMonitoring ∧
        d.id ∈ (discoverDevices s androidIds iosIds now).stoppedServers) ∧
    (∃ d' ∈ (discoverDevices s androidIds iosIds now).state.devices,
      d'.id = d.id) := by
  obtain ⟨d1, hd1, hid1, hserial1, hyes1, hno1⟩ :=
    processSerials_tracks .android now androidIds s hnd d hd
  obtain ⟨d2, hd2, hid2, hserial2, hyes2, hno2⟩ :=
    processSerials_tracks .ios now iosIds _
      (serialsNodup_processSerials .android now androidIds s hnd) d1 hd1
  have hidd : d2.id = d.id := hid2.trans hid1
  have hseriald : d2.serialNumber = d.serialNumber := hserial2.trans hserial1
  have hmemFinal : ∀ x ∈ (processSerials .ios now
        (processSerials .android now s androidIds).1 iosIds).1.devices,
      markOffline (androidIds ++ iosIds) now x ∈
        (discoverDevices s androidIds iosIds now).state.devices := by
    intro x hx
    exact List.mem_map_of_mem _ hx
  refine ⟨fun hobs => ?_, fun hmiss hoff => ?_, ?_⟩
  · have hd2status : d2.status = promoteStatus d.status ∧ d2.lastSeen = now := by
      by_cases ha : d.serialNumber ∈ androidIds
      · obtain ⟨hst1, hls1⟩ := hyes1 ha
        by_cases hr : d.serialNumber ∈ iosIds
        · obtain ⟨hst2, hls2⟩ := hyes2 (by rwa [hserial1])
          rw [hst1] at hst2
          exact ⟨hst2.trans (promoteStatus_idem _), hls2⟩
        · have h21 := hno2 (by rwa [hserial1])
          rw [h21]
          exact ⟨hst1, hls1⟩
      · have hi : d.serialNumber ∈ iosIds := by
          rcases List.mem_append.mp hobs with h | h
          · exact absurd h ha
          · exact h
        have h1d := hno1 ha
        obtain ⟨hst2, hls2⟩ := hyes2 (by rw [hserial1]; exact hi)
        rw [h1d] at hst2
        exact ⟨hst2, hls2⟩
    have hunchanged : markOffline (androidIds ++ iosIds) now d2 = d2 :=
      markOffline_of_observed _ _ _ (hseriald ▸ hobs)
    refine ⟨d2, hunchanged ▸ hmemFinal d2 hd2, hidd, hd2status.1,
      hd2status.2, ?_, ?_, ?_⟩
    · intro h
      rw [hd2status.1, h]
      rfl
    · intro h
      rw [hd2status.1, h]
      rfl
    · intro h
      rw [hd2status.1, h]
      rfl
  · have hna : d.serialNumber ∉ androidIds :=
      fun h => hmiss (List.mem_append_left _ h)
    have hni : d.serialNumber ∉ iosIds :=
      fun h => hmiss (List.mem_append_right _ h)
    have h1d : d1 = d := hno1 hna
    have h2d : d2 = d := (hno2 (by rw [hserial1]; exact hni)).trans h1d
    have hmarked : markOffline (androidIds ++ iosIds) now d =
        { d with status := .offline, lastSeen := now } :=
      markOffline_of_missing _ _ _ hmiss hoff
    refine ⟨{ d with status := .offline, lastSeen := now },
      hmarked ▸ hmemFinal d (h2d ▸ hd2), rfl, rfl, rfl, ?_, ?_⟩
    · exact mem_newlyMissing _ _ d (h2d ▸ hd2) hmiss hoff
    · exact mem_newlyMissing _ _ d (h2d ▸ hd2) hmiss hoff
  · refine ⟨markOffline (androidIds ++ iosIds) now d2, hmemFinal d2 hd2, ?_⟩
    rw [markOffline_id_field]
    exact hidd

end DeviceFarm

namespace DeviceFarm

/-- Witness for `discoverDevices_cycle`: a cycle observing only serial
"a" marks the online device with serial "b" offline and stops its log
tail and driver server. -/
theorem discoverDevices_cycle_witness :
    ∃ d' ∈ (discoverDevices
        { devices := [{ id := 0, serialNumber := "a", platform := .android,
                        status := .reserved, reservedBy := some "u",
                        reservedAt := some 1, lastSeen := 0,
                        connectedAt := 0 },
                      { id := 1, serialNumber := "b", platform := .android,
                        status := .online, lastSeen := 0,
                        connectedAt := 0 }],
          nextId := 2 } ["a"] [] 7).state.devices,
      d'.id = 1 ∧ d'.status = .offline ∧ d'.lastSeen = 7 ∧
      (1 : Nat) ∈ (discoverDevices
        { devices := [{ id := 0, serialNumber := "a", platform := .android,
                        status := .reserved, reservedBy := some "u",
                        reservedAt := some 1, lastSeen := 0,
                        connectedAt := 0 },
                      { id := 1, serialNumber := "b", platform := .android,
                        status := .online, lastSeen := 0,
                        connectedAt := 0 }],
          nextId := 2 } ["a"] [] 7).stoppedMonitoring ∧
      (1 : Nat) ∈ (discoverDevices
        { devices := [{ id := 0, serialNumber := "a", platform := .android,
                        status := .reserved, reservedBy := some "u",
                        reservedAt := some 1, lastSeen := 0,
                        connectedAt := 0 },
                      { id := 1, serialNumber := "b", platform := .android,
                        status := .online, lastSeen := 0,
                        connectedAt := 0 }],
          nextId := 2 } ["a"] [] 7).stoppedServers :=
  (discoverDevices_cycle
    { devices := [{ id := 0, serialNumber := "a", platform := .android,
                    status := .reserved, reservedBy := some "u",
                    reservedAt := some 1, lastSeen := 0, connectedAt := 0 },
                  { id := 1, serialNumber := "b", platform := .android,
                    status := .online, lastSeen := 0, connectedAt := 0 }],
      nextId := 2 } ["a"] [] 7 (by unfold serialsNodup; decide)
    { id := 1, serialNumber := "b", platform := .android,
      status := .online, lastSeen := 0, connectedAt := 0 }
    (by decide)).2.1 (by decide) (by decide)

end DeviceFarm

namespace DeviceFarm

/-! ## C5: driver-server port allocation (`AppiumService.getAvailablePort`) -/

/-- `AppiumService.basePort` (AppiumService.ts:16). -/
def basePort : Nat := 4723

/-- `AppiumService.portRange` (AppiumService.ts:17): ports 4723-4822. -/
def portRange : Nat := 100

/-- `AppiumService.getAvailablePort` (AppiumService.ts:400-411): scan the
range, skipping ports used by servers in this supervisor's pool and
probing the OS (`isPortAvailable`, modelled by `probe`); throw when the
range is exhausted. -/
def getAvailablePort (usedPorts : List Nat) (probe : Nat → Bool) :
    Except String Nat :=
  match (List.range portRange).find?
      (fun i => ¬ usedPorts.contains (basePort + i) ∧ probe (basePort + i)) with
  | some i => .ok (basePort + i)
  | none => .error "No available ports for Appium server"

/-- C5: an allocated port always lies in `[4723, 4823)` and is not the
port of any server in the pool; with all 100 range ports in use the
allocation fails with the "no available ports" error. -/
theorem getAvailablePort_correct (usedPorts : List Nat)
    (probe : Nat → Bool) :
    (∀ p, getAvailablePort usedPorts probe = .ok p →
        basePort ≤ p ∧ p < basePort + portRange ∧ p ∉ usedPorts) ∧
    ((∀ i < portRange, (basePort + i) ∈ usedPorts) →
        getAvailablePort usedPorts probe =
          .error "No available ports for Appium server") := by
  constructor
  · intro p hp
    unfold getAvailablePort at hp
    cases hfind : (List.range portRange).find?
        (fun i => ¬ usedPorts.contains (basePort + i) ∧
          probe (basePort + i)) with
    | none => rw [hfind] at hp; exact absurd hp (by simp)
    | some i =>
      rw [hfind] at hp
      have hpi : p = basePort + i := by
        simpa using hp.symm
      have hprop := List.find?_some hfind
      simp only [decide_eq_true_eq] at hprop
      have hrange := List.mem_range.mp (List.mem_of_find?_eq_some hfind)
      refine ⟨by omega, by omega, ?_⟩
      rw [hpi]
      intro hmem
      exact hprop.1 ((contains_iff_mem _ _).mpr hmem)
  · intro hall
    unfold getAvailablePort
    cases hfind : (List.range portRange).find?
        (fun i => ¬ usedPorts.contains (basePort + i) ∧
          probe (basePort + i)) with
    | none => rfl
    | some i =>
      exfalso
      have hprop := List.find?_some hfind
      simp only [decide_eq_true_eq] at hprop
      have hrange := List.mem_range.mp (List.mem_of_find?_eq_some hfind)
      exact hprop.1 ((contains_iff_mem _ _).mpr (hall i hrange))

/-- Witness for `getAvailablePort_correct`: with port 4723 in the pool
and a permissive probe, the next allocation is 4724; with the whole
range in use, allocation fails. -/
theorem getAvailablePort_correct_witness :
    (basePort ≤ 4724 ∧ 4724 < basePort + portRange ∧
      (4724 : Nat) ∉ [4723]) ∧
    getAvailablePort ((List.range portRange).map (fun i => basePort + i))
        (fun _ => true) =
      .error "No available ports for Appium server" :=
  ⟨(getAvailablePort_correct [4723] (fun _ => true)).1 4724 rfl,
   (getAvailablePort_correct _ (fun _ => true)).2 (by decide)⟩

/-! ## C6: screen-mirror pump (`DeviceService.startScreenMirroring`) -/

/-- The FPS clamp (DeviceService.ts:685): `Math.min(fps, 1)`. -/
def mirrorSafeFps (fps : ℚ) : ℚ := min fps 1

/-- State of one mirror pump: the `isCapturing` guard plus a ghost count
of captures currently in flight. -/
structure PumpState where
  isCapturing : Bool := false
  inFlight : Nat := 0
deriving DecidableEq, Repr

/-- The pump's events: an interval tick, and the completion (`finally`)
of a running capture. -/
inductive PumpEvent
  | tick
  | captureDone
deriving DecidableEq, Repr

/-- One step of the interval callback (DeviceService.ts:689-727): a tick
under the guard performs no capture; otherwise the guard is raised and a
capture starts; completion lowers the guard.  The returned flag records
whether the tick started a capture. -/
def pumpStep (s : PumpState) : PumpEvent → PumpState × Bool
  | .tick =>
    if s.isCapturing then (s, false)
    else ({ isCapturing := true, inFlight := s.inFlight + 1 }, true)
  | .captureDone => ({ isCapturing := false, inFlight := s.inFlight - 1 }, false)

/-- Run the pump from its initial state over a sequence of events. -/
def pumpRun (events : List PumpEvent) : PumpState :=
  events.foldl (fun s e => (pumpStep s e).1) {}

/-- The in-flight count mirrors the guard. -/
def pumpInv (s : PumpState) : Prop :=
  s.inFlight = (if s.isCapturing then 1 else 0)

theorem pumpInv_step (s : PumpState) (e : PumpEvent) (h : pumpInv s) :
    pumpInv (pumpStep s e).1 := by
  cases e with
  | tick =>
    by_cases hc : s.isCapturing = true
    · simpa [pumpStep, hc] using h
    · have hc' : s.isCapturing = false := by
        cases hb : s.isCapturing
        · rfl
        · exact absurd hb hc
      simp [pumpStep, hc', pumpInv] at h ⊢
      omega
  | captureDone =>
    have hle : s.inFlight ≤ 1 := by
      unfold pumpInv at h
      split at h <;> omega
    unfold pumpInv
    simp only [pumpStep, Bool.false_eq_true, if_false]
    omega

theorem pumpInv_run_aux (events : List PumpEvent) :
    ∀ s : PumpState, pumpInv s →
      pumpInv (events.foldl (fun s e => (pumpStep s e).1) s) := by
  induction events with
  | nil => intro s h; exact h
  | cons e rest ih =>
    intro s h
    exact ih _ (pumpInv_step s e h)

/-- C6: the mirror loop has single in-flight capture discipline — a tick
arriving while a capture is pending leaves the state unchanged and
starts no capture, so the number of captures in flight never exceeds one
— and the requested fps is clamped by `Math.min(fps, 1)` to a hard
ceiling of 1 FPS. -/
theorem screenMirror_discipline (events : List PumpEvent) (fps : ℚ) :
    (∀ s : PumpState, s.isCapturing = true →
        pumpStep s .tick = (s, false)) ∧
    (pumpRun events).inFlight ≤ 1 ∧
    mirrorSafeFps fps = min fps 1 ∧
    mirrorSafeFps fps ≤ 1 := by
  refine ⟨fun s hs => by simp [pumpStep, hs], ?_, rfl, min_le_right _ _⟩
  have h := pumpInv_run_aux events {} (by simp [pumpInv])
  unfold pumpRun
  rw [h]
  split <;> omega

/-- Witness for `screenMirror_discipline`: a tick under a raised guard
is dropped, and a requested 10 FPS is clamped to at most 1. -/
theorem screenMirror_discipline_witness :
    pumpStep { isCapturing := true, inFlight := 1 } .tick =
      ({ isCapturing := true, inFlight := 1 }, false) ∧
    mirrorSafeFps 10 ≤ 1 :=
  ⟨(screenMirror_discipline [] 10).1 _ rfl,
   (screenMirror_discipline [] 10).2.2.2⟩

/-! ## C9: iOS pixel-to-point conversion (`IOSClient`, ios.ts:542-930) -/

/-- One entry of `deviceScaleCache`. -/
structure ScaleEntry where
  scale : Nat
  timestamp : Nat
deriving DecidableEq, Repr

/-- The cache-validity test (ios.ts:552): entry younger than 5 minutes. -/
def scaleCacheValidAt (cached : Option ScaleEntry) (now : Nat) : Bool :=
  match cached with
  | some c => now - c.timestamp < 300000
  | none => false

/-- Scale inferred from a screenshot width (ios.ts:567). -/
def detectedScale (width : Nat) : Nat := if width > 800 then 3 else 2

/-- The detection path (ios.ts:558-576): screenshot success gives the
width-inferred scale; failure falls back to 3.  Both outcomes are
cached with the current timestamp. -/
def resolveScaleDetect (now : Nat) (shot : Option (Nat × Nat)) :
    Nat × ScaleEntry :=
  match shot with
  | some wh => (detectedScale wh.1, ⟨detectedScale wh.1, now⟩)
  | none => (3, ⟨3, now⟩)

/-- The scale used for a tap or swipe (ios.ts:547-577, 883-903): a valid
cache entry wins, otherwise detection runs. -/
def resolveScale (cached : Option ScaleEntry) (now : Nat)
    (shot : Option (Nat × Nat)) : Nat × ScaleEntry :=
  match cached with
  | some c =>
    if now - c.timestamp < 300000 then (c.scale, c)
    else resolveScaleDetect now shot
  | none => resolveScaleDetect now shot

/-- JavaScript `Math.round` (round half toward positive infinity). -/
def jsRound (q : ℚ) : ℤ := ⌊q + 1 / 2⌋

/-- `IOSClient.tapSimulatorViaXCUITest` (ios.ts:542-597): the point
coordinates handed to `idb ui tap`, and the updated cache entry. -/
def tapSimulatorViaXCUITest (cached : Option ScaleEntry) (now : Nat)
    (shot : Option (Nat × Nat)) (x y : ℚ) : (ℤ × ℤ) × ScaleEntry :=
  let r := resolveScale cached now shot
  ((jsRound (x / (r.1 : ℚ)), jsRound (y / (r.1 : ℚ))), r.2)

/-- `IOSClient.swipeSimulatorViaXCUITest` (ios.ts:879-930): the two point
coordinates and the duration in seconds handed to `idb ui swipe`. -/
def swipeSimulatorViaXCUITest (cached : Option ScaleEntry) (now : Nat)
    (shot : Option (Nat × Nat)) (startX startY endX endY duration : ℚ) :
    ((ℤ × ℤ) × (ℤ × ℤ) × ℚ) × ScaleEntry :=
  let r := resolveScale cached now shot
  (((jsRound (startX / (r.1 : ℚ)), jsRound (startY / (r.1 : ℚ))),
    (jsRound (endX / (r.1 : ℚ)), jsRound (endY / (r.1 : ℚ))),
    duration / 1000), r.2)

/-- C9: simulator taps and swipes send `round(pixel / scale)` to the
driver tool, where the scale comes from the per-device cache when the
entry is younger than 5 minutes, is `3` when the detected screenshot
width exceeds 800 and `2` otherwise, and defaults to `3` when detection
fails. -/
theorem ios_pixel_to_point (cached : Option ScaleEntry) (now : Nat)
    (shot : Option (Nat × Nat)) (x y sx sy ex ey dur : ℚ) :
    (tapSimulatorViaXCUITest cached now shot x y).1 =
      (jsRound (x / ((resolveScale cached now shot).1 : ℚ)),
       jsRound (y / ((resolveScale cached now shot).1 : ℚ))) ∧
    (swipeSimulatorViaXCUITest cached now shot sx sy ex ey dur).1 =
      ((jsRound (sx / ((resolveScale cached now shot).1 : ℚ)),
        jsRound (sy / ((resolveScale cached now shot).1 : ℚ))),
       (jsRound (ex / ((resolveScale cached now shot).1 : ℚ)),
        jsRound (ey / ((resolveScale cached now shot).1 : ℚ))),
       dur / 1000) ∧
    (∀ c, cached = some c → now - c.timestamp < 300000 →
        (resolveScale cached now shot).1 = c.scale) ∧
    (scaleCacheValidAt cached now = false → ∀ w h, shot = some (w, h) →
        (resolveScale cached now shot).1 = (if w > 800 then 3 else 2)) ∧
    (scaleCacheValidAt cached now = false → shot = none →
        (resolveScale cached now shot).1 = 3) := by
  refine ⟨rfl, rfl, ?_, ?_, ?_⟩
  · intro c hc hval
    subst hc
    simp [resolveScale, hval]
  · intro hinvalid w h hshot
    subst hshot
    cases cached with
    | none => simp [resolveScale, resolveScaleDetect, detectedScale]
    | some c =>
      have hv : ¬ (now - c.timestamp < 300000) := by
        simpa [scaleCacheValidAt] using hinvalid
      simp [resolveScale, hv, resolveScaleDetect, detectedScale]
  · intro hinvalid hshot
    subst hshot
    cases cached with
    | none => simp [resolveScale, resolveScaleDetect]
    | some c =>
      have hv : ¬ (now - c.timestamp < 300000) := by
        simpa [scaleCacheValidAt] using hinvalid
      simp [resolveScale, hv, resolveScaleDetect]

/-- Witness for `ios_pixel_to_point`: an expired cache entry plus a
detected 750-pixel-wide screenshot gives scale 2. -/
theorem ios_pixel_to_point_witness :
    (resolveScale (some ⟨3, 0⟩) 300000 (some (750, 1334))).1 = 2 := by
  have h := (ios_pixel_to_point (some ⟨3, 0⟩) 300000 (some (750, 1334))
    0 0 0 0 0 0 0).2.2.2.1 (by decide) 750 1334 rfl
  simpa using h

end DeviceFarm

namespace DeviceFarm

/-! ## The Appium log pipeline (`AppiumService`, AppiumService.ts:26-165,
236-277)

JavaScript strings are modelled as `String`/`List Char`; each regex of
the source is compiled by hand into a scanner with the same
leftmost-match, global-replace semantics.  All the regexes involved
start with a fixed character, and their quantifiers range over character
classes disjoint from what must follow, so the scanners below are
deterministic transcriptions of the backtracking search. -/

/-- `\x1b` (ESC). -/
def escChar : Char := Char.ofNat 27

/-- An opening curly brace as a character. -/
def lbrace : Char := Char.ofNat 123

/-- A closing curly brace as a character. -/
def rbrace : Char := Char.ofNat 125

/-- A single-quote character. -/
def squote : Char := Char.ofNat 39

/-- A double-quote character. -/
def dquote : Char := Char.ofNat 34

/-- JavaScript `\s` / `String.prototype.trim` whitespace. -/
def isJsWs (c : Char) : Bool :=
  let n := c.toNat
  decide (n = 9 ∨ n = 10 ∨ n = 11 ∨ n = 12 ∨ n = 13 ∨ n = 32 ∨ n = 160 ∨
    n = 0x1680 ∨ (0x2000 ≤ n ∧ n ≤ 0x200a) ∨ n = 0x2028 ∨ n = 0x2029 ∨
    n = 0x202f ∨ n = 0x205f ∨ n = 0x3000 ∨ n = 0xfeff)

/-- The class `[0-9;]` of the ANSI regexes. -/
def isDigitSemi (c : Char) : Bool := c.isDigit || c = ';'

/-- The class `[a-zA-Z]`. -/
def isAsciiLetterChar (c : Char) : Bool :=
  let n := c.toNat
  decide ((97 ≤ n ∧ n ≤ 122) ∨ (65 ≤ n ∧ n ≤ 90))

/-- The control characters removed by `stripAnsiCodes` (AppiumService.ts:32):
`[\u0000-\u0008\u000B-\u000C\u000E-\u001F\u007F]`. -/
def isStrippedCtrl (c : Char) : Bool :=
  let n := c.toNat
  decide (n ≤ 8 ∨ n = 11 ∨ n = 12 ∨ (14 ≤ n ∧ n ≤ 31) ∨ n = 127)

/-- Global replace of `/\x1b\[[0-9;]*m/` by the empty string
(AppiumService.ts:29). -/
def pass1Aux : Nat → List Char → List Char
  | 0, l => l
  | _ + 1, [] => []
  | fuel + 1, c :: cs =>
    if c = escChar then
      match cs with
      | b :: rest =>
        if b = '[' then
          match rest.dropWhile isDigitSemi with
          | m :: tail =>
            if m = 'm' then pass1Aux fuel tail
            else c :: pass1Aux fuel cs
          | [] => c :: pass1Aux fuel cs
        else c :: pass1Aux fuel cs
      | [] => c :: pass1Aux fuel cs
    else c :: pass1Aux fuel cs

def pass1 (l : List Char) : List Char := pass1Aux l.length l

/-- The terminator `[m|K]` of the extended-ANSI regex. -/
def tryEndExt : List Char → Option (List Char)
  | c :: rest => if c = 'm' || c = '|' || c = 'K' then some rest else none
  | [] => none

def tryTwoDigits : List Char → Option (List Char)
  | a :: b :: rest => if a.isDigit && b.isDigit then some rest else none
  | _ => none

def tryOneDigit : List Char → Option (List Char)
  | a :: rest => if a.isDigit then some rest else none
  | _ => none

def trySemiTwo : List Char → Option (List Char)
  | s :: rest => if s = ';' then tryTwoDigits rest else none
  | [] => none

def trySemiOne : List Char → Option (List Char)
  | s :: rest => if s = ';' then tryOneDigit rest else none
  | [] => none

/-- After `\x1b\[`: match `([0-9]{1,2}(;[0-9]{1,2})?)?[m|K]` in the
backtracking order of the regex engine (greedy quantifiers first). -/
def matchExtTail (l : List Char) : Option (List Char) :=
  (do
    let r1 ← tryTwoDigits l
    (do tryEndExt (← trySemiTwo r1)) <|>
    (do tryEndExt (← trySemiOne r1)) <|>
    tryEndExt r1) <|>
  (do
    let r1 ← tryOneDigit l
    (do tryEndExt (← trySemiTwo r1)) <|>
    (do tryEndExt (← trySemiOne r1)) <|>
    tryEndExt r1) <|>
  tryEndExt l

/-- Global replace of `/\x1b\[([0-9]{1,2}(;[0-9]{1,2})?)?[m|K]/`
(AppiumService.ts:30). -/
def pass2Aux : Nat → List Char → List Char
  | 0, l => l
  | _ + 1, [] => []
  | fuel + 1, c :: cs =>
    if c = escChar then
      match cs with
      | b :: rest =>
        if b = '[' then
          match matchExtTail rest with
          | some tail => pass2Aux fuel tail
          | none => c :: pass2Aux fuel cs
        else c :: pass2Aux fuel cs
      | [] => c :: pass2Aux fuel cs
    else c :: pass2Aux fuel cs

def pass2 (l : List Char) : List Char := pass2Aux l.length l

/-- Global replace of `/\x1b\[?[0-9;]*[a-zA-Z]/` (AppiumService.ts:31). -/
def pass3Aux : Nat → List Char → List Char
  | 0, l => l
  | _ + 1, [] => []
  | fuel + 1, c :: cs =>
    if c = escChar then
      match (match cs with
             | b :: rest => if b = '[' then rest else cs
             | [] => cs).dropWhile isDigitSemi with
      | x :: tail =>
        if isAsciiLetterChar x then pass3Aux fuel tail
        else c :: pass3Aux fuel cs
      | [] => c :: pass3Aux fuel cs
    else c :: pass3Aux fuel cs

def pass3 (l : List Char) : List Char := pass3Aux l.length l

/-- Removal of the stray control characters (AppiumService.ts:32). -/
def pass4 (l : List Char) : List Char :=
  l.filter (fun c => ¬ isStrippedCtrl c)

def trimLeftJs (l : List Char) : List Char := l.dropWhile isJsWs

def trimRightJs (l : List Char) : List Char :=
  (l.reverse.dropWhile isJsWs).reverse

/-- JavaScript `String.prototype.trim`. -/
def jsTrim (l : List Char) : List Char := trimRightJs (trimLeftJs l)

/-- `AppiumService.stripAnsiCodes` (AppiumService.ts:26-34): the three
ANSI-sequence replacements, the control-character removal, and the final
trim. -/
def stripAnsiCodes (s : String) : String :=
  String.mk (jsTrim (pass4 (pass3 (pass2 (pass1 s.data)))))

end DeviceFarm

namespace DeviceFarm

/-- Case-insensitive consumption of a (lowercase) literal. -/
def stripLitCI : List Char → List Char → Option (List Char)
  | [], l => some l
  | _ :: _, [] => none
  | n :: ns, c :: cs => if c.toLower = n then stripLitCI ns cs else none

/-- Match `<q>stacktrace<q>\s*:\s*<q>[^<q>]*<q>` (case-insensitively in
the literal) at the head of the list; return the remainder after the
match. -/
def matchStacktraceQuoted (q : Char) : List Char → Option (List Char)
  | [] => none
  | c :: cs =>
    if c = q then
      match stripLitCI ("stacktrace".data) cs with
      | some (c2 :: r2) =>
        if c2 = q then
          match r2.dropWhile isJsWs with
          | ':' :: r4 =>
            match r4.dropWhile isJsWs with
            | c3 :: r6 =>
              if c3 = q then
                match (r6.span (fun x => ¬ (x = q))).2 with
                | c4 :: r8 => if c4 = q then some r8 else none
                | [] => none
              else none
            | [] => none
          | _ => none
        else none
      | _ => none
    else none

/-- Match `<q>stacktrace<q>\s*:\s*\{[^}]*\}` at the head of the list. -/
def matchStacktraceObj (q : Char) : List Char → Option (List Char)
  | [] => none
  | c :: cs =>
    if c = q then
      match stripLitCI ("stacktrace".data) cs with
      | some (c2 :: r2) =>
        if c2 = q then
          match r2.dropWhile isJsWs with
          | ':' :: r4 =>
            match r4.dropWhile isJsWs with
            | c3 :: r6 =>
              if c3 = lbrace then
                match (r6.span (fun x => ¬ (x = rbrace))).2 with
                | c4 :: r8 => if c4 = rbrace then some r8 else none
                | [] => none
              else none
            | [] => none
          | _ => none
        else none
      | _ => none
    else none

/-- Global regex replacement: at every position try the matcher, emit the
replacement on a match and continue after it, otherwise advance one
character.  (Every matcher consumes at least one character, so the fuel
`l.length` supplied by `replaceAll` never runs out.) -/
def replaceAllAux (tm : List Char → Option (List Char))
    (rep : List Char) : Nat → List Char → List Char
  | 0, l => l
  | _ + 1, [] => []
  | fuel + 1, c :: cs =>
    match tm (c :: cs) with
    | some tail => rep ++ replaceAllAux tm rep fuel tail
    | none => c :: replaceAllAux tm rep fuel cs

def replaceAll (tm : List Char → Option (List Char)) (rep : List Char)
    (l : List Char) : List Char :=
  replaceAllAux tm rep l.length l

/-- The replacement `<q>stacktrace<q>: <q>[removed]<q>`. -/
def repQuoted (q : Char) : List Char :=
  q :: "stacktrace".data ++ [q, ':', ' ', q, '['] ++ "removed".data ++
    [']', q]

/-- The replacement `<q>stackTrace<q>: <q>[removed]<q>`. -/
def repQuotedCamel (q : Char) : List Char :=
  q :: "stackTrace".data ++ [q, ':', ' ', q, '['] ++ "removed".data ++
    [']', q]

/-- `AppiumService.removeStacktraceFromLog` (AppiumService.ts:37-57):
when the text contains both braces, redact quoted `stacktrace` values
(both quoting styles, both casings — the `/i` flag makes the camel-case
patterns match the same texts, only the replacement differs) and delete
`stacktrace` object values. -/
def removeStacktraceFromLog (s : String) : String :=
  if s.data.contains lbrace && s.data.contains rbrace then
    let t1 := replaceAll (matchStacktraceQuoted dquote) (repQuoted dquote)
      s.data
    let t2 := replaceAll (matchStacktraceQuoted squote) (repQuoted squote)
      t1
    let t3 := replaceAll (matchStacktraceQuoted dquote)
      (repQuotedCamel dquote) t2
    let t4 := replaceAll (matchStacktraceQuoted squote)
      (repQuotedCamel squote) t3
    let t5 := replaceAll (matchStacktraceObj dquote) [] t4
    let t6 := replaceAll (matchStacktraceObj squote) [] t5
    String.mk t6
  else s

end DeviceFarm

namespace DeviceFarm

def lowerList (l : List Char) : List Char := l.map Char.toLower

def startsWithList : List Char → List Char → Bool
  | [], _ => true
  | _ :: _, [] => false
  | n :: ns, h :: hs => n = h && startsWithList ns hs

/-- `String.prototype.includes` on character lists. -/
def containsList (needle : List Char) : List Char → Bool
  | [] => needle.isEmpty
  | h :: hs => startsWithList needle (h :: hs) || containsList needle hs

/-- JavaScript line terminators, which `.` does not match. -/
def isLineTerm (c : Char) : Bool :=
  let n := c.toNat
  decide (n = 10 ∨ n = 13 ∨ n = 0x2028 ∨ n = 0x2029)

/-- Split into the maximal terminator-free segments. -/
def splitSegs : List Char → List (List Char)
  | [] => [[]]
  | c :: cs =>
    if isLineTerm c then [] :: splitSegs cs
    else
      match splitSegs cs with
      | s :: rest => (c :: s) :: rest
      | [] => [[c]]

/-- Remainder after the first occurrence of a literal. -/
def dropAfterLit (lit : List Char) : List Char → Option (List Char)
  | [] => if lit.isEmpty then some [] else none
  | h :: hs =>
    if startsWithList lit (h :: hs) then some ((h :: hs).drop lit.length)
    else dropAfterLit lit hs

/-- `lit₁.*lit₂.*…` inside one segment. -/
def seqInSeg : List (List Char) → List Char → Bool
  | [], _ => true
  | lit :: rest, seg =>
    match dropAfterLit lit seg with
    | some r => seqInSeg rest r
    | none => false

/-- `.test` of a case-insensitive `/lit₁.*lit₂.*…/i` regex: the literals
with `.`-gaps must fit inside a single terminator-free segment. -/
def testSeqCI (lits : List String) (hay : List Char) : Bool :=
  (splitSegs (lowerList hay)).any (seqInSeg (lits.map String.data))

/-- Case-insensitive substring test (the literal is given lowercase). -/
def containsCI (lit : List Char) (hay : List Char) : Bool :=
  containsList lit (lowerList hay)

/-- `/^\s*at\s+/i`. -/
def patAtFrame (low : List Char) : Bool :=
  match low.dropWhile isJsWs with
  | a :: t :: c :: _ => a = 'a' && t = 't' && isJsWs c
  | _ => false

/-- `/^\s*Error:\s*$/i`. -/
def patErrorOnly (low : List Char) : Bool :=
  let r := low.dropWhile isJsWs
  startsWithList ("error:".data) r && (r.drop 6).all isJsWs

/-- `/^\s*\[debug\]/i`. -/
def patDebugTag (low : List Char) : Bool :=
  startsWithList ("[debug]".data) (low.dropWhile isJsWs)

/-- `/^\[\s*\]\s*$/`. -/
def patEmptyBrackets (low : List Char) : Bool :=
  match low with
  | '[' :: r =>
    match r.dropWhile isJsWs with
    | ']' :: r2 => r2.all isJsWs
    | _ => false
  | _ => false

/-- `/^\s*-+\s*$/` and `/^\s*=+\s*$/`. -/
def patRuleLine (ch : Char) (low : List Char) : Bool :=
  let r := low.dropWhile isJsWs
  let s := r.span (fun c => c = ch)
  (¬ s.1.isEmpty) && s.2.all isJsWs

/-- The single-quoted `'stacktrace':` literal. -/
def sqStacktracePat : List Char :=
  squote :: "stacktrace".data ++ [squote, ':']

/-- The double-quoted `"stacktrace":` literal. -/
def dqStacktracePat : List Char :=
  dquote :: "stacktrace".data ++ [dquote, ':']

/-- `AppiumService.shouldFilterLog` (AppiumService.ts:60-124): empty
lines and anything matching a filter pattern are dropped. -/
def shouldFilterLog (logLine : String) : Bool :=
  if logLine.data.isEmpty || (jsTrim logLine.data).isEmpty then true
  else
    let low := lowerList logLine.data
    patAtFrame low ||
    patErrorOnly low ||
    containsCI ("exception in thread".data) low ||
    containsCI ("stacktrace".data) low ||
    containsCI ("stack trace".data) low ||
    containsCI dqStacktracePat low ||
    containsCI sqStacktracePat low ||
    containsCI ("stacktrace".data) low ||
    containsCI ("deprecat".data) low ||
    containsCI ("deprecated".data) low ||
    containsCI ("verbose".data) low ||
    patDebugTag low ||
    containsCI ("welcome to appium".data) low ||
    containsCI ("appium version".data) low ||
    containsCI ("appium updates".data) low ||
    containsCI ("check update".data) low ||
    containsCI ("installed plugins".data) low ||
    containsCI ("installed drivers".data) low ||
    containsCI ("available plugins".data) low ||
    containsCI ("available drivers".data) low ||
    containsCI ("desired capabilities".data) low ||
    containsCI ("processed capabilities".data) low ||
    containsCI ("session capabilities".data) low ||
    containsCI ("w3c capability".data) low ||
    containsCI ("creating new".data) low ||
    containsCI ("automation name".data) low ||
    testSeqCI ["using", "path", "node_modules"] logLine.data ||
    containsCI ("creating session with".data) low ||
    containsCI ("set new command timeout".data) low ||
    startsWithList ("[http]".data) low ||
    startsWithList ("[w3c]".data) low ||
    patEmptyBrackets low ||
    patRuleLine '-' low ||
    patRuleLine '=' low

/-- The `importantPatterns` test of `extractImportantLog`
(AppiumService.ts:131-155). -/
def isImportantLine (hay : List Char) : Bool :=
  testSeqCI ["server", "start"] hay ||
    testSeqCI ["server", "listen"] hay ||
    testSeqCI ["server", "running"] hay ||
    testSeqCI ["session", "created"] hay ||
    testSeqCI ["session", "start"] hay ||
    testSeqCI ["ready", "accept", "command"] hay ||
    testSeqCI ["executing", "command"] hay ||
    testSeqCI ["command", "success"] hay ||
    testSeqCI ["command", "fail"] hay ||
    testSeqCI ["driver", "initiali"] hay ||
    testSeqCI ["app", "launch"] hay ||
    testSeqCI ["app", "install"] hay ||
    testSeqCI ["element", "found"] hay ||
    testSeqCI ["click", "element"] hay ||
    testSeqCI ["navigate", "to"] hay ||
    testSeqCI ["test", "start"] hay ||
    testSeqCI ["test", "complete"] hay ||
    containsCI ("error".data) (lowerList hay) ||
    containsCI ("fail".data) (lowerList hay) ||
    containsCI ("warn".data) (lowerList hay)

/-- `AppiumService.extractImportantLog` (AppiumService.ts:127-165):
keep a line matching an important pattern, else keep a short unfiltered
line, else drop. -/
def extractImportantLog (logLine : String) : Option String :=
  if isImportantLine logLine.data then some logLine
  else if logLine.length < 200 ∧ shouldFilterLog logLine = false then
    some logLine
  else none

/-- `cleanMessage` of `addLog` (AppiumService.ts:239-242). -/
def cleanLine (line : String) : String :=
  removeStacktraceFromLog (stripAnsiCodes line)

/-- The composite per-line filter of the log pipeline: clean
(ANSI strip + trim, then stack-trace redaction), drop empty lines, apply
the drop patterns, then the keep classification.  `none` means the line
is dropped. -/
def filterLine (line : String) : Option String :=
  if cleanLine line = "" then none
  else if shouldFilterLog (cleanLine line) then none
  else extractImportantLog (cleanLine line)

end DeviceFarm

namespace DeviceFarm

/-- `AppiumService.maxLogsPerServer` (AppiumService.ts:19). -/
def maxLogsPerServer : Nat := 500

/-- The `[timestamp] [level] message` log entry (AppiumService.ts:270). -/
def mkLogEntry (timestamp level clean : String) : String :=
  "[" ++ timestamp ++ "] [" ++ level ++ "] " ++ clean

/-- The push + shift at the end of `addLog` (AppiumService.ts:271-276):
append the entry and evict the oldest entry when the ring exceeds
`maxLogsPerServer`. -/
def pushEntry (logs : List String) (entry : String) : List String :=
  let l2 := logs ++ [entry]
  if l2.length > maxLogsPerServer then l2.drop 1 else l2

/-- The `addLog` helper of `startServerForDevice`
(AppiumService.ts:237-277): clean the message, drop empty results, apply
the filter unless forced, skip a message contained in the most recent
entry, then push with eviction. -/
def addLog (logs : List String) (timestamp level message : String)
    (forceAdd : Bool) : List String :=
  if cleanLine message = "" then logs
  else if forceAdd = false ∧ (shouldFilterLog (cleanLine message) = true ∨
      extractImportantLog (cleanLine message) = none) then logs
  else
    match logs.getLast? with
    | some last =>
      if containsList (cleanLine message).data last.data then logs
      else pushEntry logs (mkLogEntry timestamp level (cleanLine message))
    | none => pushEntry logs (mkLogEntry timestamp level (cleanLine message))

end DeviceFarm

namespace DeviceFarm

/-! ## Idempotence of the log filter (C8) -/

theorem dropWhile_cons_neg {p : Char → Bool} (a : Char) (t : List Char)
    (h : p a = false) : (a :: t).dropWhile p = a :: t := by
  simp [List.dropWhile, h]

theorem dropWhile_head_neg {p : Char → Bool} (l : List Char) (a : Char)
    (t : List Char) (h : l.dropWhile p = a :: t) : p a = false := by
  induction l with
  | nil => simp [List.dropWhile] at h
  | cons x xs ih =>
    by_cases hx : p x = true
    · simp only [List.dropWhile, hx] at h
      exact ih h
    · have hx' : p x = false := by
        cases hb : p x
        · rfl
        · exact absurd hb hx
      rw [dropWhile_cons_neg x xs hx'] at h
      cases h
      exact hx'

theorem dropWhile_idem {p : Char → Bool} (l : List Char) :
    (l.dropWhile p).dropWhile p = l.dropWhile p := by
  cases h : l.dropWhile p with
  | nil => simp
  | cons a t => exact dropWhile_cons_neg a t (dropWhile_head_neg l a t h)

theorem trimRightJs_prefix (l : List Char) : trimRightJs l <+: l := by
  unfold trimRightJs
  rw [← List.reverse_suffix, List.reverse_reverse]
  exact List.dropWhile_suffix _

theorem trimRightJs_idem (l : List Char) :
    trimRightJs (trimRightJs l) = trimRightJs l := by
  unfold trimRightJs
  rw [List.reverse_reverse, dropWhile_idem]

theorem trimLeft_of_trimmed (l : List Char) :
    trimLeftJs (trimRightJs (trimLeftJs l)) = trimRightJs (trimLeftJs l) := by
  cases hm : trimRightJs (trimLeftJs l) with
  | nil => rfl
  | cons a t =>
    have hpre : trimRightJs (trimLeftJs l) <+: trimLeftJs l :=
      trimRightJs_prefix _
    rw [hm] at hpre
    obtain ⟨r, hr⟩ := hpre
    have hhead : isJsWs a = false := by
      apply dropWhile_head_neg l a (t ++ r)
      have : trimLeftJs l = a :: (t ++ r) := by
        rw [← hr]
        simp
      exact this
    unfold trimLeftJs
    exact dropWhile_cons_neg a t hhead

theorem jsTrim_idem (l : List Char) : jsTrim (jsTrim l) = jsTrim l := by
  unfold jsTrim
  rw [trimLeft_of_trimmed, trimRightJs_idem]

theorem mem_of_trimRight {c : Char} {l : List Char}
    (h : c ∈ trimRightJs l) : c ∈ l := by
  unfold trimRightJs at h
  have h1 := List.mem_reverse.mp h
  have h2 := (List.dropWhile_suffix _).sublist.subset h1
  exact List.mem_reverse.mp h2

theorem mem_of_jsTrim {c : Char} {l : List Char} (h : c ∈ jsTrim l) :
    c ∈ l := by
  unfold jsTrim at h
  have h1 := mem_of_trimRight h
  exact (List.dropWhile_suffix _).sublist.subset h1

theorem pass1Aux_no_esc (fuel : Nat) (l : List Char) (h : escChar ∉ l) :
    pass1Aux fuel l = l := by
  induction fuel generalizing l with
  | zero => rfl
  | succ n ih =>
    cases l with
    | nil => rfl
    | cons c cs =>
      have hc : ¬ (c = escChar) :=
        fun heq => h (heq ▸ List.mem_cons_self _ _)
      simp only [pass1Aux, if_neg hc]
      rw [ih cs (fun hm => h (List.mem_cons_of_mem _ hm))]

theorem pass2Aux_no_esc (fuel : Nat) (l : List Char) (h : escChar ∉ l) :
    pass2Aux fuel l = l := by
  induction fuel generalizing l with
  | zero => rfl
  | succ n ih =>
    cases l with
    | nil => rfl
    | cons c cs =>
      have hc : ¬ (c = escChar) :=
        fun heq => h (heq ▸ List.mem_cons_self _ _)
      simp only [pass2Aux, if_neg hc]
      rw [ih cs (fun hm => h (List.mem_cons_of_mem _ hm))]

theorem pass3Aux_no_esc (fuel : Nat) (l : List Char) (h : escChar ∉ l) :
    pass3Aux fuel l = l := by
  induction fuel generalizing l with
  | zero => rfl
  | succ n ih =>
    cases l with
    | nil => rfl
    | cons c cs =>
      have hc : ¬ (c = escChar) :=
        fun heq => h (heq ▸ List.mem_cons_self _ _)
      simp only [pass3Aux, if_neg hc]
      rw [ih cs (fun hm => h (List.mem_cons_of_mem _ hm))]

theorem stripAnsiCodes_idem (s : String) :
    stripAnsiCodes (stripAnsiCodes s) = stripAnsiCodes s := by
  unfold stripAnsiCodes
  have hdata : (String.mk (jsTrim (pass4 (pass3 (pass2 (pass1 s.data)))))).data
      = jsTrim (pass4 (pass3 (pass2 (pass1 s.data)))) := rfl
  rw [hdata]
  have hctrl : ∀ c ∈ jsTrim (pass4 (pass3 (pass2 (pass1 s.data)))),
      isStrippedCtrl c = false := by
    intro c hc
    have h1 := mem_of_jsTrim hc
    have h2 := List.mem_filter.mp h1
    simpa using h2.2
  have hnoesc : escChar ∉ jsTrim (pass4 (pass3 (pass2 (pass1 s.data)))) := by
    intro hmem
    have := hctrl _ hmem
    rw [show isStrippedCtrl escChar = true from rfl] at this
    exact absurd this (by simp)
  rw [show pass1 (jsTrim (pass4 (pass3 (pass2 (pass1 s.data))))) =
      jsTrim (pass4 (pass3 (pass2 (pass1 s.data)))) from
        pass1Aux_no_esc _ _ hnoesc]
  rw [show pass2 (jsTrim (pass4 (pass3 (pass2 (pass1 s.data))))) =
      jsTrim (pass4 (pass3 (pass2 (pass1 s.data)))) from
        pass2Aux_no_esc _ _ hnoesc]
  rw [show pass3 (jsTrim (pass4 (pass3 (pass2 (pass1 s.data))))) =
      jsTrim (pass4 (pass3 (pass2 (pass1 s.data)))) from
        pass3Aux_no_esc _ _ hnoesc]
  rw [show pass4 (jsTrim (pass4 (pass3 (pass2 (pass1 s.data))))) =
      jsTrim (pass4 (pass3 (pass2 (pass1 s.data)))) from
        List.filter_eq_self.mpr (fun c hc => by simp [hctrl c hc])]
  rw [jsTrim_idem]

theorem extractImportantLog_some (l x : String)
    (h : extractImportantLog l = some x) : x = l := by
  unfold extractImportantLog at h
  by_cases h1 : isImportantLine l.data = true
  · rw [if_pos h1] at h
    exact (Option.some.inj h).symm
  · rw [if_neg h1] at h
    by_cases h2 : l.length < 200 ∧ shouldFilterLog l = false
    · rw [if_pos h2] at h
      exact (Option.some.inj h).symm
    · rw [if_neg h2] at h
      exact absurd h (by simp)

end DeviceFarm

namespace DeviceFarm

/-- C8 (counterexample): the log filter is not idempotent.  On
`foo "stacktrace": {x}` the redaction deletes the object value leaving
the retained line `foo ` (trailing space); refiltering that line trims
it to `foo`, a different result. -/
theorem logFilter_not_idempotent :
    (filterLine "foo \"stacktrace\": \x7bx\x7d").bind filterLine ≠
      filterLine "foo \"stacktrace\": \x7bx\x7d" := by
  decide

end DeviceFarm

namespace DeviceFarm

/-- C8 (amended): the log filter is idempotent on every line whose
stack-trace redaction is a no-op on the ANSI-stripped text (in
particular every line without braces): refiltering the filter's output
changes nothing.  In general idempotence fails — see the
counterexample — because the redaction can expose new leading or
trailing whitespace or new pattern matches that only the second
application processes. -/
theorem logFilter_idempotent_of_redaction_noop (line : String)
    (h : removeStacktraceFromLog (stripAnsiCodes line) =
      stripAnsiCodes line) :
    (filterLine line).bind filterLine = filterLine line := by
  have hclean : cleanLine line = stripAnsiCodes line := h
  have hclean2 : cleanLine (stripAnsiCodes line) = stripAnsiCodes line := by
    unfold cleanLine
    rw [stripAnsiCodes_idem]
    exact h
  by_cases h1 : cleanLine line = ""
  · unfold filterLine
    rw [if_pos h1]
    rfl
  by_cases h2 : shouldFilterLog (cleanLine line) = true
  · unfold filterLine
    rw [if_neg h1, if_pos h2]
    rfl
  have hline : filterLine line = extractImportantLog (cleanLine line) := by
    unfold filterLine
    rw [if_neg h1, if_neg h2]
  cases hx : extractImportantLog (cleanLine line) with
  | none =>
    rw [hline, hx]
    rfl
  | some m =>
    have hm : m = cleanLine line := extractImportantLog_some _ _ hx
    rw [hline, hx, Option.some_bind]
    subst hm
    rw [hclean] at h1 h2 hx ⊢
    unfold filterLine
    rw [hclean2, if_neg h1, if_neg h2]
    exact hx

set_option maxHeartbeats 1000000 in
/-- Witness for `logFilter_idempotent_of_redaction_noop` on a brace-free
line. -/
theorem logFilter_idempotent_witness :
    (filterLine "Session created successfully").bind filterLine =
      filterLine "Session created successfully" :=
  logFilter_idempotent_of_redaction_noop "Session created successfully"
    (by decide)

end DeviceFarm

namespace DeviceFarm

/-! ## C7: the per-server log ring -/

theorem pushEntry_length_le (logs : List String) (entry : String)
    (h : logs.length ≤ 500) : (pushEntry logs entry).length ≤ 500 := by
  unfold pushEntry maxLogsPerServer
  by_cases hc : (logs ++ [entry]).length > 500
  · rw [if_pos hc]
    simp
    omega
  · rw [if_neg hc]
    simp at hc ⊢
    omega

theorem addLog_length_le (logs : List String) (ts lvl msg : String)
    (force : Bool) (h : logs.length ≤ 500) :
    (addLog logs ts lvl msg force).length ≤ 500 := by
  unfold addLog
  by_cases h1 : cleanLine msg = ""
  · rw [if_pos h1]; exact h
  rw [if_neg h1]
  by_cases h2 : force = false ∧ (shouldFilterLog (cleanLine msg) = true ∨
      extractImportantLog (cleanLine msg) = none)
  · rw [if_pos h2]; exact h
  rw [if_neg h2]
  split
  · split
    · exact h
    · exact pushEntry_length_le _ _ h
  · exact pushEntry_length_le _ _ h

/-- The tuple of arguments of one `addLog` call. -/
structure LogCall where
  timestamp : String
  level : String
  message : String
  forceAdd : Bool

/-- A server's ring after a sequence of `addLog` calls from startup. -/
def runLog (calls : List LogCall) : List String :=
  calls.foldl
    (fun logs c => addLog logs c.timestamp c.level c.message c.forceAdd) []

theorem runLog_aux (calls : List LogCall) :
    ∀ logs : List String, logs.length ≤ 500 →
      (calls.foldl (fun logs c =>
        addLog logs c.timestamp c.level c.message c.forceAdd) logs).length
        ≤ 500 := by
  induction calls with
  | nil => intro logs h; exact h
  | cons c rest ih =>
    intro logs h
    exact ih _ (addLog_length_le logs c.timestamp c.level c.message
      c.forceAdd h)

/-- C7: the post-filter ring never exceeds 500 entries over any call
sequence; an append to a full ring evicts the oldest entry; and a
message whose cleaned text is contained in the most recent entry is
skipped. -/
theorem appium_log_ring (calls : List LogCall) (logs : List String)
    (ts lvl msg : String) (force : Bool) :
    (runLog calls).length ≤ 500 ∧
    (logs.length ≤ 500 →
      (addLog logs ts lvl msg force).length ≤ 500) ∧
    (logs.length = 500 → cleanLine msg ≠ "" →
      (force = true ∨ (shouldFilterLog (cleanLine msg) = false ∧
        extractImportantLog (cleanLine msg) ≠ none)) →
      (∀ last, logs.getLast? = some last →
        containsList (cleanLine msg).data last.data = false) →
      addLog logs ts lvl msg force =
        logs.drop 1 ++ [mkLogEntry ts lvl (cleanLine msg)]) ∧
    (∀ last, logs.getLast? = some last →
      containsList (cleanLine msg).data last.data = true →
      addLog logs ts lvl msg force = logs) := by
  refine ⟨runLog_aux calls [] (by simp), addLog_length_le logs ts lvl msg force,
    fun hfull hne hsurv hdup => ?_, fun last hlast hdup => ?_⟩
  · unfold addLog
    rw [if_neg hne]
    have h2 : ¬ (force = false ∧ (shouldFilterLog (cleanLine msg) = true ∨
        extractImportantLog (cleanLine msg) = none)) := by
      rcases hsurv with hf | ⟨hs, hx⟩
      · intro hcon
        rw [hf] at hcon
        exact absurd hcon.1 (by simp)
      · intro hcon
        rcases hcon.2 with hc | hc
        · rw [hs] at hc
          exact absurd hc (by simp)
        · exact hx hc
    rw [if_neg h2]
    have hpush : pushEntry logs (mkLogEntry ts lvl (cleanLine msg)) =
        logs.drop 1 ++ [mkLogEntry ts lvl (cleanLine msg)] := by
      unfold pushEntry maxLogsPerServer
      rw [if_pos (by simp [hfull])]
      rw [List.drop_append_of_le_length (by omega)]
    split
    next last heq =>
      rw [if_neg (by simp [hdup last heq])]
      exact hpush
    next heq => exact hpush
  · unfold addLog
    by_cases h1 : cleanLine msg = ""
    · rw [if_pos h1]
    rw [if_neg h1]
    by_cases h2 : force = false ∧ (shouldFilterLog (cleanLine msg) = true ∨
        extractImportantLog (cleanLine msg) = none)
    · rw [if_pos h2]
    rw [if_neg h2]
    split
    next last2 heq =>
      have hl2 : last2 = last := by
        rw [hlast] at heq
        exact (Option.some.inj heq).symm
      rw [if_pos (hl2 ▸ hdup)]
    next heq =>
      rw [hlast] at heq
      cases heq

end DeviceFarm

namespace DeviceFarm

set_option maxHeartbeats 1000000 in
set_option maxRecDepth 4000 in
/-- Witness for `appium_log_ring`: appending a surviving line to a full
ring evicts the oldest entry, and a line contained in the newest entry
is skipped. -/
theorem appium_log_ring_witness :
    addLog (List.replicate 500 "x") "t" "info" "session created ok"
        false =
      (List.replicate 500 "x").drop 1 ++
        [mkLogEntry "t" "info" (cleanLine "session created ok")] ∧
    addLog ["alpha session created"] "t" "info" "session created" false =
      ["alpha session created"] :=
  ⟨(appium_log_ring [] (List.replicate 500 "x") "t" "info"
      "session created ok" false).2.2.1 (by simp) (by decide)
      (Or.inr (by decide))
      (fun last h => by
        have hg : (List.replicate 500 "x").getLast? = some "x" := by
          decide
        rw [hg] at h
        have hl : last = "x" := (Option.some.inj h).symm
        subst hl
        decide),
   (appium_log_ring [] ["alpha session created"] "t" "info"
      "session created" false).2.2.2 "alpha session created" rfl
      (by decide)⟩

end DeviceFarm

namespace DeviceFarm

theorem markOffline_serial (observed : List String) (now : Nat)
    (d : Device) : (markOffline observed now d).serialNumber =
      d.serialNumber := by
  unfold markOffline
  split <;> rfl

theorem serials_map_updateDevice (devs : List Device) (deviceId : Nat)
    (f : Device → Device)
    (hf : ∀ d, (f d).serialNumber = d.serialNumber) :
    (updateDevice devs deviceId f).map (fun d => d.serialNumber) =
      devs.map (fun d => d.serialNumber) := by
  unfold updateDevice
  rw [List.map_map]
  apply List.map_congr_left
  intro d _
  by_cases h : d.id = deviceId
  · simp [h, hf]
  · simp [h]

/-- The hypothesis of `discoverDevices_cycle` is an invariant: every
reachable registry has pairwise-distinct serial numbers (devices are
created only when no device with that serial exists, and no operation
rewrites a serial). -/
theorem serialsNodup_reach (s : ServiceState) (hs : Reach s) :
    serialsNodup s.devices := by
  induction hs with
  | init => simp [serialsNodup]
  | @discover s0 androidIds iosIds now _ ih =>
    unfold discoverDevices
    simp only
    unfold serialsNodup
    rw [List.map_map]
    have hcong : (List.map ((fun d => d.serialNumber) ∘
        markOffline (androidIds ++ iosIds) now)
        (processSerials .ios now
          (processSerials .android now s0 androidIds).1 iosIds).1.devices) =
        (List.map (fun d => d.serialNumber)
        (processSerials .ios now
          (processSerials .android now s0 androidIds).1 iosIds).1.devices) :=
      List.map_congr_left (fun d _ => markOffline_serial _ _ d)
    rw [hcong]
    exact serialsNodup_processSerials .ios now iosIds _
      (serialsNodup_processSerials .android now androidIds _ ih)
  | @reserve s0 deviceId userId duration purpose now _ ih =>
    unfold reserveDevice
    split
    · exact ih
    · split
      · exact ih
      · show serialsNodup (updateDevice s0.devices deviceId (fun d' =>
          { d' with status := .reserved, reservedBy := some userId,
                    reservedAt := some now }))
        unfold serialsNodup
        rw [serials_map_updateDevice s0.devices deviceId (fun d' =>
          { d' with status := .reserved, reservedBy := some userId,
                    reservedAt := some now }) (fun d => rfl)]
        exact ih
  | @release s0 deviceId now _ ih =>
    unfold releaseDevice
    split
    · exact ih
    · show serialsNodup (updateDevice s0.devices deviceId (fun d' =>
        { d' with status := .online, reservedBy := none,
                  reservedAt := none }))
      unfold serialsNodup
      rw [serials_map_updateDevice s0.devices deviceId (fun d' =>
        { d' with status := .online, reservedBy := none,
                  reservedAt := none }) (fun d => rfl)]
      exact ih
  | @createSess s0 deviceId userId now _ ih =>
    show serialsNodup (updateDevice s0.devices deviceId (fun d =>
      { d with status := .inUse }))
    unfold serialsNodup
    rw [serials_map_updateDevice s0.devices deviceId (fun d =>
      { d with status := .inUse }) (fun d => rfl)]
    exact ih
  | @endSess s0 sessionId now _ ih =>
    unfold endSession
    split
    · exact ih
    · next sess heq =>
      show serialsNodup (updateDevice s0.devices sess.deviceId (fun d =>
        { d with status :=
          if jsTruthy d.reservedBy then .reserved else .online }))
      unfold serialsNodup
      rw [serials_map_updateDevice s0.devices sess.deviceId (fun d =>
        { d with status :=
          if jsTruthy d.reservedBy then .reserved else .online })
        (fun d => rfl)]
      exact ih

end DeviceFarm
